import Mathlib

/-!
Verification development for the `mmscbt_backend` document-to-question
extraction engine.  The Python sources under `app/utils/document_parser.py`,
`app/utils/snapshot_parser.py` and `app/admin/bulk_upload.py` are shallowly
embedded below: each regular expression used by the source is hand-compiled
into an executable matcher over `List Char` that reproduces Python `re`
semantics (anchored `re.match`, scanning `re.search`, global `re.sub`) for the
pattern in question, and each stateful parsing loop becomes a fold over an
explicit state record.  Character-level helpers mirror Python string methods
(`strip`, `split`, `lower`, `title`, containment) on ASCII data, which is the
alphabet these documents use.
-/

/-! ## Python-style string primitives -/

/-- Python `\s` / `str.strip` whitespace characters. -/
def isPySpace (c : Char) : Bool :=
  c = ' ' || c = '\t' || c = '\n' || c = '\r' || c = '\x0b' || c = '\x0c'

def isAsciiDigit (c : Char) : Bool := '0' ≤ c && c ≤ '9'

def isAsciiLower (c : Char) : Bool := 'a' ≤ c && c ≤ 'z'

def isAsciiUpper (c : Char) : Bool := 'A' ≤ c && c ≤ 'Z'

def isAsciiLetter (c : Char) : Bool := isAsciiLower c || isAsciiUpper c

/-- Python regex `\w` (word character) on ASCII data. -/
def isWordChar (c : Char) : Bool := isAsciiLetter c || isAsciiDigit c || c = '_'

def lowerChar (c : Char) : Char :=
  if isAsciiUpper c then Char.ofNat (c.toNat + 32) else c

def upperChar (c : Char) : Char :=
  if isAsciiLower c then Char.ofNat (c.toNat - 32) else c

def lowerL (l : List Char) : List Char := l.map lowerChar

/-- Python `str.lower()` (ASCII fragment). -/
def pyLower (s : String) : String := ⟨lowerL s.data⟩

def stripL (l : List Char) : List Char :=
  ((l.dropWhile isPySpace).reverse.dropWhile isPySpace).reverse

/-- Python `str.strip()`. -/
def pyStrip (s : String) : String := ⟨stripL s.data⟩

/-- Python `str.split()` with no separator: split on whitespace runs,
dropping empty fields.  `cur` accumulates the current word reversed. -/
def pyWordsGo (cur : List Char) : List Char → List (List Char)
  | [] => if cur.isEmpty then [] else [cur.reverse]
  | c :: t =>
    if isPySpace c then
      if cur.isEmpty then pyWordsGo [] t else cur.reverse :: pyWordsGo [] t
    else pyWordsGo (c :: cur) t

def pyWords (l : List Char) : List (List Char) := pyWordsGo [] l

def wordCount (l : List Char) : Nat := (pyWords l).length

/-- Does `pat` occur as a prefix of `l` (character-exact)? -/
def beginsWith : List Char → List Char → Bool
  | [], _ => true
  | _ :: _, [] => false
  | p :: ps, c :: cs => p = c && beginsWith ps cs

/-- Case-insensitive prefix test (ASCII case folding, like `re.IGNORECASE`). -/
def beginsWithCI (pat l : List Char) : Bool :=
  beginsWith (lowerL pat) (lowerL l)

/-- Drop a case-insensitive literal prefix, returning the rest on success. -/
def dropLitCI (pat l : List Char) : Option (List Char) :=
  if beginsWithCI pat l then some (l.drop pat.length) else none

/-- Python `sub in s` substring containment. -/
def hasSub (pat : List Char) : List Char → Bool
  | [] => pat.isEmpty
  | l@(_ :: t) => beginsWith pat l || hasSub pat t

/-- Case-insensitive substring containment. -/
def hasSubCI (pat l : List Char) : Bool := hasSub (lowerL pat) (lowerL l)

def endsWithL (pat l : List Char) : Bool := beginsWith pat.reverse l.reverse

def natOfDigitsGo (acc : Nat) : List Char → Nat
  | [] => acc
  | c :: t => natOfDigitsGo (acc * 10 + (c.toNat - '0'.toNat)) t

/-- Numeric value of a digit string (`int(...)` on a `\d+` capture). -/
def natOfDigits (ds : List Char) : Nat := natOfDigitsGo 0 ds

/-- Python `str.title()` on ASCII data: a letter that follows a non-letter is
uppercased, every other letter is lowercased. -/
def pyTitleGo (prevAlpha : Bool) : List Char → List Char
  | [] => []
  | c :: t =>
    if isAsciiLetter c then
      (if prevAlpha then lowerChar c else upperChar c) :: pyTitleGo true t
    else c :: pyTitleGo false t

def pyTitle (s : String) : String := ⟨pyTitleGo false s.data⟩

/-- Python `str.isupper()` on a word: at least one cased character and all
cased characters uppercase (ASCII fragment). -/
def pyIsUpperWord (w : List Char) : Bool :=
  w.any isAsciiLetter && w.all (fun c => !isAsciiLetter c || isAsciiUpper c)

/-! ## Generic `re.sub` scanner

`gsubGeneric m repl fuel l` scans `l` left to right; wherever the anchored
matcher `m` succeeds (returning the suffix after the match) the match is
replaced by `repl` and scanning resumes after it, otherwise one character is
copied.  This is exactly `re.sub` for patterns that cannot match the empty
string.  `fuel` is the input length, which bounds the recursion because every
step consumes at least one character. -/

def gsubGeneric (m : List Char → Option (List Char)) (repl : List Char) :
    Nat → List Char → List Char
  | _, [] => []
  | 0, l => l
  | Nat.succ fuel, c :: t =>
    match m (c :: t) with
    | some rest => repl ++ gsubGeneric m repl fuel rest
    | none => c :: gsubGeneric m repl fuel t

/-- `re.sub` variant whose matcher may consult the character immediately
before the current position (for `\b` word boundaries).  The context is taken
from the original string, as Python does. -/
def gsubCtx (m : Option Char → List Char → Option (List Char)) (repl : List Char) :
    Option Char → Nat → List Char → List Char
  | _, _, [] => []
  | _, 0, l => l
  | prev, Nat.succ fuel, c :: t =>
    match m prev (c :: t) with
    | some rest =>
      let consumed := (c :: t).take ((c :: t).length - rest.length)
      repl ++ gsubCtx m repl consumed.getLast? fuel rest
    | none => c :: gsubCtx m repl (some c) fuel t

/-- Matcher for one occurrence of `\s+` (used for whitespace collapsing). -/
def wsRunMatch : List Char → Option (List Char)
  | [] => none
  | c :: t => if isPySpace c then some (t.dropWhile isPySpace) else none

/-- Python `re.sub(r'\s+', ' ', l)`. -/
def collapseWs (l : List Char) : List Char :=
  gsubGeneric wsRunMatch [' '] l.length l

/-- Python `re.sub(r'\s*[,;]\s*$', '', l)`: strip one trailing comma or
semicolon together with surrounding whitespace. -/
def stripTrailingCommaSemi (l : List Char) : List Char :=
  let r := l.reverse.dropWhile isPySpace
  match r with
  | c :: t => if c = ',' || c = ';' then (t.dropWhile isPySpace).reverse else l
  | [] => l

/-! ## `DocumentParser` structural pattern library

Shallow embedding of `app/utils/document_parser.py`.  Each `qPat*` / `oPat*`
definition compiles one regular expression from the source's priority-ordered
pattern lists; all of these patterns are deterministic under maximal-munch
(backtracking can never turn a failure into a success), so they are encoded as
straight-line matchers. -/

namespace DocParser

/-- Character class `[\.\)\,\:\-]` used by the question patterns. -/
def punctQ (c : Char) : Bool := c = '.' || c = ')' || c = ',' || c = ':' || c = '-'

/-- Character class `[\.\)\,\:\-\s]`. -/
def punctQS (c : Char) : Bool := punctQ c || isPySpace c

/-- Character class `[\.\,\:\-]` (no `)`), used after parenthesized options. -/
def punctO (c : Char) : Bool := c = '.' || c = ',' || c = ':' || c = '-'

def punctOS (c : Char) : Bool := punctO c || isPySpace c

def isLetterAD (c : Char) : Bool := ('a' ≤ c && c ≤ 'd') || ('A' ≤ c && c ≤ 'D')

def isDigit14 (c : Char) : Bool := '1' ≤ c && c ≤ '4'

/-- `[IVX]` under `re.IGNORECASE`. -/
def isRomanChar (c : Char) : Bool :=
  let lc := lowerChar c
  lc = 'i' || lc = 'v' || lc = 'x'

/-- `^\d+[\.\)\,\:\-\s]+` -/
def qPatNum (l : List Char) : Bool :=
  let ds := l.takeWhile isAsciiDigit
  !ds.isEmpty &&
    (match l.dropWhile isAsciiDigit with
     | c :: _ => punctQS c
     | [] => false)

/-- `^Q\.?\s*\d+[\.\)\,\:\-\s]*` with `re.IGNORECASE`. -/
def qPatQ (l : List Char) : Bool :=
  match l with
  | c :: t =>
    lowerChar c = 'q' &&
      (let t1 := match t with | '.' :: u => u | _ => t
       let t2 := t1.dropWhile isPySpace
       !(t2.takeWhile isAsciiDigit).isEmpty)
  | [] => false

/-- `^Question\s*\.?\s*\d+[\.\)\,\:\-\s]*` with `re.IGNORECASE` (also covers
the duplicate `^QUESTION…` pattern in the source list). -/
def qPatQuestion (l : List Char) : Bool :=
  match dropLitCI "question".data l with
  | some r =>
    let r1 := r.dropWhile isPySpace
    let r2 := match r1 with | '.' :: u => u | _ => r1
    let r3 := r2.dropWhile isPySpace
    !(r3.takeWhile isAsciiDigit).isEmpty
  | none => false

/-- `^\(\d+\)[\.\)\,\:\-\s]*` -/
def qPatParen (l : List Char) : Bool :=
  match l with
  | '(' :: t =>
    !(t.takeWhile isAsciiDigit).isEmpty &&
      (match t.dropWhile isAsciiDigit with
       | ')' :: _ => true
       | _ => false)
  | _ => false

/-- `^\d+[\s]*[\.\)\,\:\-][\s]*[A-Za-z]` -/
def qPatNumPunctLetter (l : List Char) : Bool :=
  let ds := l.takeWhile isAsciiDigit
  !ds.isEmpty &&
    (match (l.dropWhile isAsciiDigit).dropWhile isPySpace with
     | c :: u =>
       punctQ c &&
         (match u.dropWhile isPySpace with
          | d :: _ => isAsciiLetter d
          | [] => false)
     | [] => false)

/-- `^No\.?\s*\d+[\.\)\,\:\-\s]*` with `re.IGNORECASE`. -/
def qPatNo (l : List Char) : Bool :=
  match dropLitCI "no".data l with
  | some r =>
    let r1 := match r with | '.' :: u => u | _ => r
    let r2 := r1.dropWhile isPySpace
    !(r2.takeWhile isAsciiDigit).isEmpty
  | none => false

/-- `^\d+[\s]*[A-Za-z]` -/
def qPatNumLetter (l : List Char) : Bool :=
  let ds := l.takeWhile isAsciiDigit
  !ds.isEmpty &&
    (match (l.dropWhile isAsciiDigit).dropWhile isPySpace with
     | c :: _ => isAsciiLetter c
     | [] => false)

/-- `^[IVX]+[\.\)\,\:\-\s]+` with `re.IGNORECASE`. -/
def qPatRoman (l : List Char) : Bool :=
  let run := l.takeWhile isRomanChar
  !run.isEmpty &&
    (match l.dropWhile isRomanChar with
     | c :: _ => punctQS c
     | [] => false)

/-- `^\d+\s+[A-Z]` — the extra "simple" check applied only to texts of more
than two words (case-sensitive in the source). -/
def qPatSimple (l : List Char) : Bool :=
  let ds := l.takeWhile isAsciiDigit
  !ds.isEmpty &&
    (let r := l.dropWhile isAsciiDigit
     !(r.takeWhile isPySpace).isEmpty &&
       (match r.dropWhile isPySpace with
        | c :: _ => isAsciiUpper c
        | [] => false))

def optionVocab : List String :=
  ["option", "choice", "answer", "correct", "wrong", "false", "true"]

/-- `DocumentParser._looks_like_mcq_option`: short lettered (`A-D`) or
numbered (`1-4`) texts, or lettered texts containing option vocabulary, are
treated as MCQ options and excluded from question detection. -/
def looks_like_mcq_option (text : List Char) : Bool :=
  (match text with
   | c :: p :: _ =>
     isLetterAD c && punctQS p &&
       (decide (wordCount text ≤ 5) ||
        optionVocab.any (fun w => hasSub (lowerL w.data) (lowerL text)))
   | _ => false) ||
  (match text with
   | c :: p :: _ => isDigit14 c && punctQS p && decide (wordCount text ≤ 5)
   | _ => false)

/-- `DocumentParser._detect_question_pattern`. -/
def detect_question_pattern (text : String) : Bool :=
  let tc := stripL text.data
  if looks_like_mcq_option tc then false
  else
    qPatNum tc || qPatQ tc || qPatQuestion tc || qPatParen tc ||
    qPatQuestion tc || qPatNumPunctLetter tc || qPatNo tc || qPatNumLetter tc ||
    qPatRoman tc ||
    (decide (2 < wordCount tc) && qPatSimple tc)

/-- `^[a-d][\.\)\,\:\-\s]+` (and the identical `^[A-D]…` pattern) under
`re.IGNORECASE`. -/
def oPatLetterPunct (l : List Char) : Bool :=
  match l with
  | c :: p :: _ => isLetterAD c && punctQS p
  | _ => false

/-- `^\([a-dA-D]\)[\.\,\:\-\s]*` -/
def oPatParenLetter (l : List Char) : Bool :=
  match l with
  | '(' :: c :: ')' :: _ => isLetterAD c
  | _ => false

/-- `^[a-dA-D][\.\,\:\-\s]*` — the trailing `*` makes any text starting with a
letter `a`–`d` (either case) match. -/
def oPatLetterStar (l : List Char) : Bool :=
  match l with
  | c :: _ => isLetterAD c
  | [] => false

/-- `^[a-dA-D][\s]*[\.\)\,\:\-][\s]*[A-Za-z]` -/
def oPatLetterPunctLetter (l : List Char) : Bool :=
  match l with
  | c :: t =>
    isLetterAD c &&
      (match t.dropWhile isPySpace with
       | p :: u =>
         punctQ p &&
           (match u.dropWhile isPySpace with
            | d :: _ => isAsciiLetter d
            | [] => false)
       | [] => false)
  | [] => false

/-- `^[a-dA-D][\s]+[A-Za-z]` -/
def oPatLetterSpaceLetter (l : List Char) : Bool :=
  match l with
  | c :: t =>
    isLetterAD c &&
      !(t.takeWhile isPySpace).isEmpty &&
      (match t.dropWhile isPySpace with
       | d :: _ => isAsciiLetter d
       | [] => false)
  | [] => false

/-- `^[1-4][\.\)\,\:\-\s]+` -/
def oPatDigitPunct (l : List Char) : Bool :=
  match l with
  | c :: p :: _ => isDigit14 c && punctQS p
  | _ => false

/-- `^\([1-4]\)[\.\,\:\-\s]*` -/
def oPatParenDigit (l : List Char) : Bool :=
  match l with
  | '(' :: c :: ')' :: _ => isDigit14 c
  | _ => false

/-- `^[ivx]+[\.\)\,\:\-\s]+` with `re.IGNORECASE`. -/
def oPatRoman (l : List Char) : Bool :=
  let run := l.takeWhile isRomanChar
  !run.isEmpty &&
    (match l.dropWhile isRomanChar with
     | c :: _ => punctQS c
     | [] => false)

/-- `^[\-\•\*][\s]*[A-Za-z]` -/
def oPatBullet (l : List Char) : Bool :=
  match l with
  | c :: t =>
    (c = '-' || c = '•' || c = '*') &&
      (match t.dropWhile isPySpace with
       | d :: _ => isAsciiLetter d
       | [] => false)
  | [] => false

/-- The trailing ad-hoc check in `_detect_option_pattern`: option starter
character followed by punctuation or space, in a multi-word text. -/
def oPatFallback (l : List Char) : Bool :=
  match l with
  | c :: t =>
    (isLetterAD c || isDigit14 c) && decide (1 < wordCount (c :: t)) &&
      (match t with
       | d :: u =>
         (d = '.' || d = ',' || d = ')' || d = ':' || d = '-' || d = ' ') ||
           (d = ')' && (match u with | ' ' :: _ => true | _ => false))
       | [] => false)
  | [] => false

/-- `DocumentParser._detect_option_pattern`. -/
def detect_option_pattern (text : String) : Bool :=
  let tc := stripL text.data
  oPatLetterPunct tc || oPatLetterPunct tc || oPatParenLetter tc ||
  oPatLetterStar tc || oPatLetterPunctLetter tc || oPatLetterSpaceLetter tc ||
  oPatDigitPunct tc || oPatParenDigit tc || oPatRoman tc || oPatBullet tc ||
  oPatFallback tc

end DocParser

namespace DocParser

/-- Shape of a short option string: the stripped text starts with a letter
`a`–`d` (either case) or a digit `1`–`4` followed by punctuation or space, and
has at most five whitespace-separated words. -/
def optionShapeShort (s : String) : Bool :=
  match stripL s.data with
  | c :: p :: _ =>
    (isLetterAD c || isDigit14 c) && punctQS p &&
      decide (wordCount (stripL s.data) ≤ 5)
  | _ => false

end DocParser

/-- C4 counterexample: the claim states that for every supported
question-start string — `'(1)'` among them — the question-start detector
returns true and the option-start detector returns false.  On `"(1)"` the
question-start detector does return true, but the option-start detector also
returns true (its pattern `^\([1-4]\)[\.\,\:\-\s]*` matches), so the two
detectors are not mutually exclusive on the documented catalogue. -/
theorem c4_counterexample :
    DocParser.detect_question_pattern "(1)" = true ∧
    DocParser.detect_option_pattern "(1)" = true := by
  decide

/-- C4 (amended): mutual exclusivity holds in one direction only.  Every
`Q`/`Question`/`No.`-prefixed catalogue string is detected as a question
start and not as an option start; every short (at most 5 words) string
starting with a single letter `a`–`d` or digit `1`–`4` followed by
punctuation or space is detected as an option start and never as a question
start; but parenthesized-digit and Roman-numeral question starts (and digit
`1`–`4` numeric starts) are simultaneously detected as option starts, so the
option-start detector does not return false on the whole question catalogue. -/
theorem c4_detectors_amended :
    (∀ s ∈ (["Q1:", "Q.1", "Question 1", "QUESTION 5", "No. 7"] : List String),
        DocParser.detect_question_pattern s = true ∧
        DocParser.detect_option_pattern s = false) ∧
    (∀ s : String, DocParser.optionShapeShort s = true →
        DocParser.detect_option_pattern s = true ∧
        DocParser.detect_question_pattern s = false) ∧
    (DocParser.detect_question_pattern "(1) Which of these is a primary colour" = true ∧
     DocParser.detect_option_pattern "(1) Which of these is a primary colour" = true ∧
     DocParser.detect_question_pattern "II. Discuss the causes of erosion" = true ∧
     DocParser.detect_option_pattern "II. Discuss the causes of erosion" = true) := by
  refine ⟨by decide, ?_, by decide⟩
  intro s hs
  unfold DocParser.optionShapeShort at hs
  unfold DocParser.detect_option_pattern DocParser.detect_question_pattern
  cases hstrip : stripL s.data with
  | nil => rw [hstrip] at hs; simp at hs
  | cons c t =>
    cases t with
    | nil => rw [hstrip] at hs; simp at hs
    | cons p rest =>
      rw [hstrip] at hs
      have hs' : ((DocParser.isLetterAD c || DocParser.isDigit14 c) &&
          DocParser.punctQS p && decide (wordCount (c :: p :: rest) ≤ 5)) = true := hs
      simp only [Bool.and_eq_true, Bool.or_eq_true] at hs'
      obtain ⟨⟨hcls, hp⟩, hwc⟩ := hs'
      have hlooks : DocParser.looks_like_mcq_option (c :: p :: rest) = true := by
        unfold DocParser.looks_like_mcq_option
        rcases hcls with hl | hd
        · simp [hl, hp, hwc]
        · simp [hd, hp, hwc]
      refine ⟨?_, by simp [hlooks]⟩
      rcases hcls with hl | hd
      · simp [DocParser.oPatLetterPunct, hl, hp]
      · simp [DocParser.oPatDigitPunct, hd, hp]

/-- Witness for `c4_detectors_amended`: instantiates the catalogue part at
`"Q1:"` and the universal option-shape part at `"a) Paris"`. -/
theorem c4_detectors_amended_witness :
    (DocParser.detect_question_pattern "Q1:" = true ∧
     DocParser.detect_option_pattern "Q1:" = false) ∧
    (DocParser.detect_option_pattern "a) Paris" = true ∧
     DocParser.detect_question_pattern "a) Paris" = false) :=
  ⟨c4_detectors_amended.1 "Q1:" (by decide),
   c4_detectors_amended.2.1 "a) Paris" (by decide)⟩

namespace DocParser

/-! ### Mark extraction (`DocumentParser._extract_marks`)

The source tries twenty regexes in order with `re.search` (first match in the
text), keeps the first captured integer in `[1, 100]`, then falls back to the
first standalone integer (`\b(\d+)\b`) in `[1, 20]`, and finally defaults
to 1.  Each regex is compiled to an anchored matcher returning the captured
number; `reSearchNum` supplies the position-scanning `re.search` behaviour. -/

/-- Scan every start position, returning the first successful match
(`re.search` leftmost-match semantics). -/
def reSearchNum (m : List Char → Option Nat) : List Char → Option Nat
  | [] => none
  | c :: t =>
    match m (c :: t) with
    | some v => some v
    | none => reSearchNum m t

/-- Anchored matcher for `OPEN(\d+)\s*KW s? CLOSE` — the bracketed forms
`\[(\d+)\s*marks?\]`, `\((\d+)\s*points?\)`, … -/
def mArkBracket (opc clc : Char) (kw : List Char) (l : List Char) : Option Nat :=
  match l with
  | c :: t =>
    if c = opc then
      let ds := t.takeWhile isAsciiDigit
      if ds.isEmpty then none
      else
        let r1 := (t.dropWhile isAsciiDigit).dropWhile isPySpace
        match dropLitCI kw r1 with
        | some r2 =>
          (match r2 with
           | c2 :: rest3 =>
             if c2 = 's' then
               (match rest3 with
                | c3 :: _ => if c3 = clc then some (natOfDigits ds) else none
                | [] => none)
             else if c2 = clc then some (natOfDigits ds) else none
           | [] => none)
        | none => none
    else none
  | [] => none

/-- Anchored matcher for `(\d+)\s*KW…` — the bare forms `(\d+)\s*marks?`
etc.; the optional trailing `s` has no effect on matching. -/
def mArkBare (kw : List Char) (l : List Char) : Option Nat :=
  let ds := l.takeWhile isAsciiDigit
  if ds.isEmpty then none
  else
    match dropLitCI kw ((l.dropWhile isAsciiDigit).dropWhile isPySpace) with
    | some _ => some (natOfDigits ds)
    | none => none

/-- Anchored matcher for `[-–—]\s*(\d+)\s*KW…`. -/
def mArkDash (kw : List Char) (l : List Char) : Option Nat :=
  match l with
  | c :: t =>
    if c = '-' || c = '–' || c = '—' then
      let t1 := t.dropWhile isPySpace
      let ds := t1.takeWhile isAsciiDigit
      if ds.isEmpty then none
      else
        match dropLitCI kw ((t1.dropWhile isAsciiDigit).dropWhile isPySpace) with
        | some _ => some (natOfDigits ds)
        | none => none
    else none
  | [] => none

/-- Whole-string matcher for `.*[^\d](\d+)m\s*$` (and the `p` twin): a final
`m`/`p` preceded by a digit run that does not start the string. -/
def mArkEnd (suffix : Char) (l : List Char) : Option Nat :=
  let r := l.reverse.dropWhile isPySpace
  match r with
  | c :: t =>
    if c = suffix then
      let ds := t.takeWhile isAsciiDigit
      if ds.isEmpty then none
      else if (t.dropWhile isAsciiDigit).isEmpty then none
      else some (natOfDigits ds.reverse)
    else none
  | [] => none

/-- Anchored matcher for `KW s? \s*[:=]\s*(\d+)` — `marks?\s*[:=]\s*(\d+)`
and friends.  The greedy optional `s` is tried first, then given back. -/
def mArkColon (kw : List Char) (hasOptS : Bool) (l : List Char) : Option Nat :=
  match dropLitCI kw l with
  | some r =>
    let tryRest := fun (r' : List Char) =>
      match (r'.dropWhile isPySpace) with
      | c :: t =>
        if c = ':' || c = '=' then
          let ds := (t.dropWhile isPySpace).takeWhile isAsciiDigit
          if ds.isEmpty then none else some (natOfDigits ds)
        else none
      | [] => none
    if hasOptS then
      match r with
      | 's' :: r2 =>
        (match tryRest r2 with
         | some v => some v
         | none => tryRest r)
      | _ => tryRest r
    else tryRest r
  | none => none

/-- The twenty patterns of `_extract_marks`, in source order. -/
def markPatternFns : List (List Char → Option Nat) :=
  [reSearchNum (mArkBracket '[' ']' "mark".data),
   reSearchNum (mArkBracket '(' ')' "mark".data),
   reSearchNum (mArkBracket '[' ']' "point".data),
   reSearchNum (mArkBracket '(' ')' "point".data),
   reSearchNum (mArkBracket '[' ']' "pt".data),
   reSearchNum (mArkBracket '(' ')' "pt".data),
   reSearchNum (mArkBare "mark".data),
   reSearchNum (mArkBare "point".data),
   reSearchNum (mArkBare "pt".data),
   reSearchNum (mArkBare "mark".data),
   reSearchNum (mArkBare "point".data),
   reSearchNum (mArkBare "pt".data),
   reSearchNum (mArkDash "mark".data),
   reSearchNum (mArkDash "point".data),
   reSearchNum (mArkDash "pt".data),
   mArkEnd 'm',
   mArkEnd 'p',
   reSearchNum (mArkColon "mark".data true),
   reSearchNum (mArkColon "point".data true),
   reSearchNum (mArkColon "total".data false)]

/-- The pattern loop: the first pattern whose first match captures a value in
`[1, 100]` wins; an out-of-range capture moves on to the next pattern. -/
def tryMarkPatterns : List (List Char → Option Nat) → List Char → Option Nat
  | [], _ => none
  | f :: fs, l =>
    match f l with
    | some v => if 1 ≤ v && v ≤ 100 then some v else tryMarkPatterns fs l
    | none => tryMarkPatterns fs l

/-- `re.findall(r'\b(\d+)\b', text)`: all maximal digit runs delimited by
word boundaries, left to right.  `boundary` records whether the previous
character was a non-word character (or the start), `run` the digits collected
so far (reversed) and `ok` whether that run began at a boundary. -/
def findallStandalone (boundary : Bool) (run : List Char) (ok : Bool) :
    List Char → List Nat
  | [] => if run.isEmpty then [] else if ok then [natOfDigits run.reverse] else []
  | c :: t =>
    if isAsciiDigit c then
      if run.isEmpty then findallStandalone false [c] boundary t
      else findallStandalone false (c :: run) ok t
    else
      let rest := findallStandalone (!isWordChar c) [] true t
      if !run.isEmpty && ok && !isWordChar c then natOfDigits run.reverse :: rest
      else rest

/-- `DocumentParser._extract_marks`. -/
def extract_marks (text : String) : Nat :=
  match tryMarkPatterns markPatternFns (lowerL text.data) with
  | some v => v
  | none =>
    match (findallStandalone true [] true text.data).find?
        (fun n => decide (1 ≤ n ∧ n ≤ 20)) with
    | some n => n
    | none => 1

end DocParser

/-- Every value returned by the pattern loop passed its `[1, 100]` guard. -/
theorem tryMarkPatterns_in_range :
    ∀ (fs : List (List Char → Option Nat)) (l : List Char) (v : Nat),
      DocParser.tryMarkPatterns fs l = some v → 1 ≤ v ∧ v ≤ 100 := by
  intro fs
  induction fs with
  | nil => intro l v h; simp [DocParser.tryMarkPatterns] at h
  | cons f fs ih =>
    intro l v h
    unfold DocParser.tryMarkPatterns at h
    cases hf : f l with
    | none => rw [hf] at h; exact ih l v h
    | some w =>
      rw [hf] at h
      simp only [] at h
      by_cases hb : (decide (1 ≤ w) && decide (w ≤ 100)) = true
      · rw [if_pos hb] at h
        cases h
        simpa using hb
      · rw [if_neg hb] at h
        exact ih l v h

/-- `extract_marks` always returns a value in `[1, 100]`. -/
theorem extract_marks_in_range (t : String) :
    1 ≤ DocParser.extract_marks t ∧ DocParser.extract_marks t ≤ 100 := by
  unfold DocParser.extract_marks
  cases h : DocParser.tryMarkPatterns DocParser.markPatternFns (lowerL t.data) with
  | some v => simpa using tryMarkPatterns_in_range _ _ _ h
  | none =>
    simp only
    cases h2 : (DocParser.findallStandalone true [] true t.data).find?
        (fun n => decide (1 ≤ n ∧ n ≤ 20)) with
    | some n =>
      have hp := List.find?_some h2
      simp only [decide_eq_true_eq] at hp
      simp only
      omega
    | none => simp

/-- C3 counterexample: the claim asserts
`extract_marks("What is 2+2?") = 1` (default), but the standalone-integer
fallback `\b(\d+)\b` finds the `2` of `2+2` (`+` is not a word character, so
both sides of the digit are word boundaries) and the function returns 2. -/
theorem c3_counterexample :
    DocParser.extract_marks "What is 2+2?" = 2 ∧
    DocParser.extract_marks "What is 2+2?" ≠ 1 := by
  decide

/-- C3 (amended): mark extraction tries the ordered documented patterns and
returns the first captured integer lying in `[1,100]`; if no pattern matches
it returns the first standalone integer in `[1,20]` found anywhere in the
text, and otherwise returns the default 1.  In particular
`extract_marks("Explain photosynthesis [10 marks]") = 10`, while
`extract_marks("What is 2+2?") = 2` — the fallback finds the standalone `2` —
and the default 1 appears only for texts with no usable number, e.g.
`extract_marks("What is the capital?") = 1`.  The result always lies in
`[1, 100]`. -/
theorem c3_extract_marks_amended :
    DocParser.extract_marks "Explain photosynthesis [10 marks]" = 10 ∧
    DocParser.extract_marks "What is 2+2?" = 2 ∧
    DocParser.extract_marks "What is the capital?" = 1 ∧
    ∀ t : String, 1 ≤ DocParser.extract_marks t ∧ DocParser.extract_marks t ≤ 100 :=
  ⟨by decide, by decide, by decide, extract_marks_in_range⟩

namespace DocParser

/-! ### Correct-answer detection and text cleanup -/

/-- The indicator list of `DocumentParser._is_correct_option`, in source
order. -/
def correctIndicators : List String :=
  ["*", "✓", "√", "✗", "×", "▪", "■", "◾", "⬛",
   "correct", "answer", "(correct)", "[correct]",
   "(answer)", "[answer]", "(right)", "[right]",
   "right", "true", "(true)", "[true]",
   "(✓)", "[✓]", "(*)", "[*]",
   "ans", "(ans)", "[ans]"]

/-- `DocumentParser._is_correct_option`: indicator at the end (bare or
bracketed), or anywhere in the text, or emphasis markup, or more than half of
the words upper-case. -/
def is_correct_option (text : String) : Bool :=
  let tl := stripL (lowerL text.data)
  (correctIndicators.any fun ind =>
    let il := lowerL ind.data
    endsWithL il tl || endsWithL ('(' :: il ++ [')']) tl ||
      endsWithL ('[' :: il ++ [']']) tl) ||
  (correctIndicators.any fun ind => hasSub (lowerL ind.data) tl) ||
  (hasSub "<strong>".data text.data || hasSub "<b>".data text.data ||
   hasSub "<em>".data text.data) ||
  (let words := pyWords tl
   if 1 < words.length then
     let capsCount := ((pyWords text.data).filter pyIsUpperWord).length
     decide (words.length < 2 * capsCount)
   else false)

/-- Matcher for `\s*IND\s*` at the current position (`IND` a case-insensitive
literal), used by `_remove_correct_answer_markers`, which replaces each match
with a single space. -/
def indMatchAt (ind : List Char) (l : List Char) : Option (List Char) :=
  match dropLitCI ind (l.dropWhile isPySpace) with
  | some r2 => some (r2.dropWhile isPySpace)
  | none => none

/-- The removal list of `DocumentParser._remove_correct_answer_markers`, in
source order (bracketed forms precede the bare words that they contain). -/
def markerRemovalList : List String :=
  ["*", "✓", "√", "✗", "×", "▪", "■", "◾", "⬛",
   "(correct)", "[correct]", "correct",
   "(answer)", "[answer]", "answer",
   "(right)", "[right]", "right",
   "(true)", "[true]", "true",
   "(✓)", "[✓]", "(*)", "[*]",
   "(ans)", "[ans]", "ans"]

/-- `DocumentParser._remove_correct_answer_markers`. -/
def remove_correct_answer_markers (text : String) : String :=
  let l0 := stripL text.data
  let l1 := markerRemovalList.foldl
    (fun acc ind => gsubGeneric (indMatchAt ind.data) [' '] acc.length acc) l0
  ⟨stripTrailingCommaSemi (stripL (collapseWs l1))⟩

/-- Rest-returning matcher for `^\d+[\.\)\,\:\-\s]+`. -/
def cqNumRest (l : List Char) : Option (List Char) :=
  let ds := l.takeWhile isAsciiDigit
  if ds.isEmpty then none
  else
    let r := l.dropWhile isAsciiDigit
    let ps := r.takeWhile punctQS
    if ps.isEmpty then none else some (r.dropWhile punctQS)

/-- Rest-returning matcher for `^Q\.?\s*\d+[\.\)\,\:\-\s]*` (ci). -/
def cqQRest (l : List Char) : Option (List Char) :=
  match l with
  | c :: t =>
    if lowerChar c = 'q' then
      let t1 := match t with | '.' :: u => u | _ => t
      let t2 := t1.dropWhile isPySpace
      if (t2.takeWhile isAsciiDigit).isEmpty then none
      else some ((t2.dropWhile isAsciiDigit).dropWhile punctQS)
    else none
  | [] => none

/-- Rest-returning matcher for `^Question\s*\.?\s*\d+[\.\)\,\:\-\s]*` (ci);
also used for the duplicate `^QUESTION…` entry. -/
def cqQuestionRest (l : List Char) : Option (List Char) :=
  match dropLitCI "question".data l with
  | some r =>
    let r1 := r.dropWhile isPySpace
    let r2 := match r1 with | '.' :: u => u | _ => r1
    let r3 := r2.dropWhile isPySpace
    if (r3.takeWhile isAsciiDigit).isEmpty then none
    else some ((r3.dropWhile isAsciiDigit).dropWhile punctQS)
  | none => none

/-- Rest-returning matcher for `^\(\d+\)[\.\)\,\:\-\s]*`. -/
def cqParenRest (l : List Char) : Option (List Char) :=
  match l with
  | '(' :: t =>
    if (t.takeWhile isAsciiDigit).isEmpty then none
    else
      match t.dropWhile isAsciiDigit with
      | ')' :: u => some (u.dropWhile punctQS)
      | _ => none
  | _ => none

/-- Rest-returning matcher for `^No\.?\s*\d+[\.\)\,\:\-\s]*` (ci). -/
def cqNoRest (l : List Char) : Option (List Char) :=
  match dropLitCI "no".data l with
  | some r =>
    let r1 := match r with | '.' :: u => u | _ => r
    let r2 := r1.dropWhile isPySpace
    if (r2.takeWhile isAsciiDigit).isEmpty then none
    else some ((r2.dropWhile isAsciiDigit).dropWhile punctQS)
  | none => none

/-- Rest-returning matcher for `^[IVX]+[\.\)\,\:\-\s]+` (ci). -/
def cqRomanRest (l : List Char) : Option (List Char) :=
  let run := l.takeWhile isRomanChar
  if run.isEmpty then none
  else
    let r := l.dropWhile isRomanChar
    let ps := r.takeWhile punctQS
    if ps.isEmpty then none else some (r.dropWhile punctQS)

/-- One `re.sub('^…', '', text).strip()` step of the prefix cleaners. -/
def anchorStripStep (l : List Char) (m : List Char → Option (List Char)) :
    List Char :=
  match m l with
  | some r => stripL r
  | none => stripL l

/-- `DocumentParser._clean_question_text`: strip the leading question marker
(seven anchored patterns applied in order, each followed by `strip`). -/
def clean_question_text (text : String) : String :=
  ⟨[cqNumRest, cqQRest, cqQuestionRest, cqParenRest, cqQuestionRest,
    cqNoRest, cqRomanRest].foldl anchorStripStep (stripL text.data)⟩

/-- Rest-returning matcher for `^[a-dA-D][\.\)\,\:\-\s]+` (ci). -/
def coLetterRest (l : List Char) : Option (List Char) :=
  match l with
  | c :: t =>
    if isLetterAD c then
      let ps := t.takeWhile punctQS
      if ps.isEmpty then none else some (t.dropWhile punctQS)
    else none
  | [] => none

/-- Rest-returning matcher for `^\([a-dA-D]\)[\.\,\:\-\s]*`. -/
def coParenLetterRest (l : List Char) : Option (List Char) :=
  match l with
  | '(' :: c :: ')' :: u => if isLetterAD c then some (u.dropWhile punctOS) else none
  | _ => none

/-- Rest-returning matcher for `^[1-4][\.\)\,\:\-\s]+`. -/
def coDigitRest (l : List Char) : Option (List Char) :=
  match l with
  | c :: t =>
    if isDigit14 c then
      let ps := t.takeWhile punctQS
      if ps.isEmpty then none else some (t.dropWhile punctQS)
    else none
  | [] => none

/-- Rest-returning matcher for `^\([1-4]\)[\.\,\:\-\s]*`. -/
def coParenDigitRest (l : List Char) : Option (List Char) :=
  match l with
  | '(' :: c :: ')' :: u => if isDigit14 c then some (u.dropWhile punctOS) else none
  | _ => none

/-- Rest-returning matcher for `^[ivx]+[\.\)\,\:\-\s]+` (ci). -/
def coRomanRest (l : List Char) : Option (List Char) := cqRomanRest l

/-- Rest-returning matcher for `^[\-\•\*][\s]*`. -/
def coBulletRest (l : List Char) : Option (List Char) :=
  match l with
  | c :: t =>
    if c = '-' || c = '•' || c = '*' then some (t.dropWhile isPySpace) else none
  | [] => none

/-- `DocumentParser._clean_option_text`: strip the leading option marker (six
anchored patterns applied in order, each followed by `strip`). -/
def clean_option_text (text : String) : String :=
  ⟨[coLetterRest, coParenLetterRest, coDigitRest, coParenDigitRest,
    coRomanRest, coBulletRest].foldl anchorStripStep (stripL text.data)⟩

end DocParser

namespace DocParser

/-! ### Marks-notation removal (`DocumentParser._remove_marks_from_text`) -/

/-- Rest-returning matcher for the bracketed forms `\[(\d+)\s*marks?\]` …
(global `re.sub` with empty replacement). -/
def rmBracketMatch (opc clc : Char) (kw : List Char) (l : List Char) :
    Option (List Char) :=
  match l with
  | c :: t =>
    if c = opc then
      let ds := t.takeWhile isAsciiDigit
      if ds.isEmpty then none
      else
        let r1 := (t.dropWhile isAsciiDigit).dropWhile isPySpace
        match dropLitCI kw r1 with
        | some r2 =>
          (match r2 with
           | c2 :: rest3 =>
             if c2 = 's' then
               (match rest3 with
                | c3 :: rest4 => if c3 = clc then some rest4 else none
                | [] => none)
             else if c2 = clc then some rest3 else none
           | [] => none)
        | none => none
    else none
  | [] => none

/-- Rest-returning matcher for `[-–—]\s*(\d+)\s*KW s?`. -/
def rmDashMatch (kw : List Char) (l : List Char) : Option (List Char) :=
  match l with
  | c :: t =>
    if c = '-' || c = '–' || c = '—' then
      let t1 := t.dropWhile isPySpace
      let ds := t1.takeWhile isAsciiDigit
      if ds.isEmpty then none
      else
        match dropLitCI kw ((t1.dropWhile isAsciiDigit).dropWhile isPySpace) with
        | some r =>
          (match r with
           | 's' :: r2 => some r2
           | _ => some r)
        | none => none
    else none
  | [] => none

/-- Context matcher for `\b(\d+)\s*KW s?\b`. -/
def rmWordNumKw (kw : List Char) (prev : Option Char) (l : List Char) :
    Option (List Char) :=
  let boundary := match prev with
    | none => true
    | some p => !isWordChar p
  if !boundary then none
  else
    let ds := l.takeWhile isAsciiDigit
    if ds.isEmpty then none
    else
      match dropLitCI kw ((l.dropWhile isAsciiDigit).dropWhile isPySpace) with
      | some r =>
        (match r with
         | 's' :: r2 =>
           (match r2 with
            | c2 :: _ => if !isWordChar c2 then some r2 else none
            | [] => some r2)
         | c2 :: _ => if !isWordChar c2 then some r else none
         | [] => some r)
      | none => none

/-- Context matcher for `\b(\d+)m\b` / `\b(\d+)p\b` (ci). -/
def rmWordNumSuffix (suffix : Char) (prev : Option Char) (l : List Char) :
    Option (List Char) :=
  let boundary := match prev with
    | none => true
    | some p => !isWordChar p
  if !boundary then none
  else
    let ds := l.takeWhile isAsciiDigit
    if ds.isEmpty then none
    else
      match l.dropWhile isAsciiDigit with
      | c :: r =>
        if lowerChar c = suffix then
          (match r with
           | c2 :: _ => if !isWordChar c2 then some r else none
           | [] => some r)
        else none
      | [] => none

/-- Rest-returning matcher for `KW s?\s*[:=]\s*(\d+)` (used with empty
replacement). -/
def rmColonMatch (kw : List Char) (hasOptS : Bool) (l : List Char) :
    Option (List Char) :=
  match dropLitCI kw l with
  | some r =>
    let tryRest := fun (r' : List Char) =>
      match r'.dropWhile isPySpace with
      | c :: t =>
        if c = ':' || c = '=' then
          let t1 := t.dropWhile isPySpace
          if (t1.takeWhile isAsciiDigit).isEmpty then none
          else some (t1.dropWhile isAsciiDigit)
        else none
      | [] => none
    if hasOptS then
      match r with
      | 's' :: r2 =>
        (match tryRest r2 with
         | some v => some v
         | none => tryRest r)
      | _ => tryRest r
    else tryRest r
  | none => none

/-- Lift a context-free matcher to the context-aware `gsubCtx` form. -/
def noCtx (m : List Char → Option (List Char)) :
    Option Char → List Char → Option (List Char) :=
  fun _ l => m l

/-- The seventeen global substitutions of `_remove_marks_from_text`, in
source order. -/
def removeMarksMatchers : List (Option Char → List Char → Option (List Char)) :=
  [noCtx (rmBracketMatch '[' ']' "mark".data),
   noCtx (rmBracketMatch '(' ')' "mark".data),
   noCtx (rmBracketMatch '[' ']' "point".data),
   noCtx (rmBracketMatch '(' ')' "point".data),
   noCtx (rmBracketMatch '[' ']' "pt".data),
   noCtx (rmBracketMatch '(' ')' "pt".data),
   noCtx (rmDashMatch "mark".data),
   noCtx (rmDashMatch "point".data),
   noCtx (rmDashMatch "pt".data),
   rmWordNumKw "mark".data,
   rmWordNumKw "point".data,
   rmWordNumKw "pt".data,
   rmWordNumSuffix 'm',
   rmWordNumSuffix 'p',
   noCtx (rmColonMatch "mark".data true),
   noCtx (rmColonMatch "point".data true),
   noCtx (rmColonMatch "total".data false)]

/-- `DocumentParser._remove_marks_from_text`. -/
def remove_marks_from_text (text : String) : String :=
  let l1 := removeMarksMatchers.foldl
    (fun acc m => gsubCtx m [] none acc.length acc) text.data
  ⟨stripTrailingCommaSemi (stripL (collapseWs l1))⟩

/-- `DocumentParser._clean_html_preserve_formatting`, specialized to
paragraphs whose runs carry no markup: `BeautifulSoup(...).get_text()` is the
identity on plain text, so `plain_text` is the stripped input and the
formatting-preservation branch (guarded by `html_text.strip() != plain_text`)
never fires. -/
def clean_html_plain (html_text : String) (is_question is_option : Bool) :
    String :=
  let plain := pyStrip html_text
  if is_question then remove_marks_from_text (clean_question_text plain)
  else if is_option then clean_option_text plain
  else plain

/-! ### Sub-questions, question type, instructions -/

/-- `DocumentParser._detect_sub_question_pattern` (case-sensitive). -/
def detect_sub_question_pattern (text : String) : Bool :=
  let l := text.data
  (match l with
   | c :: p :: sp :: _ => isAsciiLower c && (p = '.' || p = ')') && isPySpace sp
   | _ => false) ||
  (match l with
   | '(' :: c :: ')' :: sp :: _ => isAsciiLower c && isPySpace sp
   | _ => false) ||
  (let run := l.takeWhile (fun c => c = 'i' || c = 'v' || c = 'x')
   !run.isEmpty &&
     (match l.drop run.length with
      | p :: sp :: _ => (p = '.' || p = ')') && isPySpace sp
      | _ => false)) ||
  (match l with
   | '(' :: t =>
     let run := t.takeWhile (fun c => c = 'i' || c = 'v' || c = 'x')
     !run.isEmpty &&
       (match t.drop run.length with
        | ')' :: sp :: _ => isPySpace sp
        | _ => false)
   | _ => false)

structure SubQuestion where
  sub_number : String
  sub_text : String
  sub_marks : Nat
deriving DecidableEq, Repr

/-- `DocumentParser._parse_sub_question`, specialized to plain text (the
HTML-formatting preservation branch compares `html_text` with `raw_text` and
is skipped when they coincide).  `sub_number` is the maximal lowercase-letter
run when followed by `.` or `)` (the regex `^([a-z]+|[ivx]+)[\.\)]\s*`),
otherwise the default `a`. -/
def parse_sub_question (raw_text : String) : SubQuestion :=
  let l := raw_text.data
  let run := l.takeWhile isAsciiLower
  let subNum :=
    if !run.isEmpty &&
        (match l.drop run.length with
         | c :: _ => c = '.' || c = ')'
         | [] => false) then
      String.mk run
    else "a"
  let m := extract_marks raw_text
  { sub_number := subNum,
    sub_text := clean_option_text raw_text,
    sub_marks := if m = 0 then 1 else m }

def mcqTypeIndicators : List String :=
  ["select", "choose", "pick", "option", "a)", "b)", "c)", "d)",
   "A)", "B)", "C)", "D)"]

def theoryTypeIndicators : List String :=
  ["explain", "describe", "discuss", "analyze", "elaborate", "write"]

def completionIndicators : List String := ["complete", "fill", "blank", "missing"]

/-- `DocumentParser._detect_question_type`. -/
def detect_question_type (text : String) (default_type : String) : String :=
  if default_type = "mcq" || default_type = "theory" then default_type
  else
    let tl := lowerL text.data
    let mcq0 := (mcqTypeIndicators.filter (fun i => hasSub i.data tl)).length
    let th0 := (theoryTypeIndicators.filter (fun i => hasSub i.data tl)).length
    let blank := hasSub "_____".data text.data || hasSub "__".data text.data
    let mcq1 := if blank && th0 = 0 then mcq0 + 2 else mcq0
    let mcq2 :=
      if decide (wordCount text.data < 20) && blank then mcq1 + 1 else mcq1
    let mcq3 :=
      if completionIndicators.any (fun i => hasSub i.data tl) then mcq2 + 1
      else mcq2
    if th0 < mcq3 then "mcq" else "theory"

def instructionKeywords : List String :=
  ["choose", "select", "identify", "complete", "fill", "match",
   "read the passage", "answer the following", "from the options",
   "correct answer", "best answer", "most appropriate",
   "instructions", "direction", "note", "read carefully"]

/-- `DocumentParser._is_standalone_instruction`. -/
def is_standalone_instruction (text : String) : Bool :=
  let ts := stripL text.data
  if detect_question_pattern ⟨ts⟩ then false
  else
    let tl := lowerL ts
    let hasKw := instructionKeywords.any (fun k => hasSub k.data tl)
    let isDesc := endsWithL [':'] ts || endsWithL ['.'] ts ||
      hasSub "choose".data tl || hasSub "select".data tl ||
      hasSub "following".data tl
    hasKw && isDesc && decide (3 < wordCount ts)

end DocParser

namespace DocParser

/-- Typed payload produced by `DocumentParser._detect_instruction_pattern`.
Branches that do not set a field leave it at its default (the source dicts
simply omit those keys; consumers read them with `.get`). -/
structure InstrMatch where
  type : String
  title : String
  instruction_text : String := ""
  applies_to : String
  start_question : Option Nat := none
  end_question : Option Nat := none
  component : Option String := none
  identifier : Option String := none
deriving DecidableEq, Repr

/-- Capture of the common regex tail `\s*P?\s*(.+)` (`P` an optional
punctuation character from `punct`): greedily strip spaces, the optional
punctuation and more spaces; if that leaves text, it is the capture (up to a
newline, since `.` does not match `\n`); if it leaves nothing, Python
backtracking surrenders the final consumed character as the capture. -/
def tailCap (punct : List Char) (r : List Char) : Option (List Char) :=
  let r1 := r.dropWhile isPySpace
  let r2 := match r1 with
    | c :: t => if punct.contains c then t else r1
    | [] => r1
  let r3 := r2.dropWhile isPySpace
  let g := r3.takeWhile (fun c => c ≠ '\n')
  if !g.isEmpty then some g
  else
    match r.getLast? with
    | some c => if c ≠ '\n' then some [c] else none
    | none => none

/-- Greedy optional `s` (ci) before a `tailCap` tail: try consuming the `s`
first, fall back to leaving it for the capture. -/
def optSTail (punct : List Char) (r : List Char) : Option (List Char) :=
  match r with
  | c :: t =>
    if lowerChar c = 's' then
      (match tailCap punct t with
       | some g => some g
       | none => tailCap punct r)
    else tailCap punct r
  | [] => tailCap punct r

/-- `^INSTRUCTIONS?\s*:?\s*(.+)` → general instruction. -/
def iMInstructions (l : List Char) : Option InstrMatch :=
  match dropLitCI "instruction".data l with
  | some r =>
    (match optSTail [':'] r with
     | some g =>
       some { type := "general", title := ⟨g⟩, instruction_text := ⟨g⟩,
              applies_to := "following_questions" }
     | none => none)
  | none => none

/-- `^INSTRUCTION\s+FOR\s+(.+)` → general instruction. -/
def iMInstructionFor (l : List Char) : Option InstrMatch :=
  match dropLitCI "instruction".data l with
  | some r =>
    if (r.takeWhile isPySpace).isEmpty then none
    else
      match dropLitCI "for".data (r.dropWhile isPySpace) with
      | some r2 =>
        let sp := r2.takeWhile isPySpace
        if sp.isEmpty then none
        else
          let r3 := r2.dropWhile isPySpace
          let g := r3.takeWhile (fun c => c ≠ '\n')
          if !g.isEmpty then
            some { type := "general", title := ⟨g⟩, instruction_text := ⟨g⟩,
                   applies_to := "following_questions" }
          else if 2 ≤ sp.length then
            some { type := "general", title := " ", instruction_text := " ",
                   applies_to := "following_questions" }
          else none
      | none => none
  | none => none

/-- `^GENERAL\s+INSTRUCTIONS?\s*:?\s*(.+)` → general instruction. -/
def iMGeneralInstructions (l : List Char) : Option InstrMatch :=
  match dropLitCI "general".data l with
  | some r =>
    if (r.takeWhile isPySpace).isEmpty then none
    else
      match dropLitCI "instruction".data (r.dropWhile isPySpace) with
      | some r2 =>
        (match optSTail [':'] r2 with
         | some g =>
           some { type := "general", title := ⟨g⟩, instruction_text := ⟨g⟩,
                  applies_to := "following_questions" }
         | none => none)
      | none => none
  | none => none

/-- `^SECTION\s+([A-Z])\s*[-:]?\s*(.+)` (ci) → section instruction with the
letter as identifier and the remainder as title. -/
def iMSection (l : List Char) : Option InstrMatch :=
  match dropLitCI "section".data l with
  | some r =>
    if (r.takeWhile isPySpace).isEmpty then none
    else
      match r.dropWhile isPySpace with
      | c :: t =>
        if isAsciiLetter c then
          match tailCap ['-', ':'] t with
          | some g =>
            some { type := "section", identifier := some ⟨[c]⟩, title := ⟨g⟩,
                   applies_to := "following_questions" }
          | none => none
        else none
      | [] => none
  | none => none

/-- `^PART\s+([A-Z]|[IVX]+|\d+)\s*[-:]?\s*(.+)` (ci) → component
instruction; the alternatives are tried in regex order. -/
def iMPart (l : List Char) : Option InstrMatch :=
  match dropLitCI "part".data l with
  | some r =>
    if (r.takeWhile isPySpace).isEmpty then none
    else
      let r1 := r.dropWhile isPySpace
      let mk := fun (idText : List Char) (g : List Char) =>
        some { type := "component", identifier := some ⟨idText⟩, title := ⟨g⟩,
               applies_to := "following_questions" : InstrMatch }
      let alt1 := match r1 with
        | c :: t =>
          if isAsciiLetter c then
            (match tailCap ['-', ':'] t with
             | some g => mk [c] g
             | none => none)
          else none
        | [] => none
      match alt1 with
      | some m => some m
      | none =>
        let run := r1.takeWhile isRomanChar
        let alt2 :=
          if run.isEmpty then none
          else
            match tailCap ['-', ':'] (r1.drop run.length) with
            | some g => mk run g
            | none => none
        match alt2 with
        | some m => some m
        | none =>
          let ds := r1.takeWhile isAsciiDigit
          if ds.isEmpty then none
          else
            match tailCap ['-', ':'] (r1.drop ds.length) with
            | some g => mk ds g
            | none => none
  | none => none

/-- `^COMPONENT\s+(\d+)\s*[-:]?\s*(.+)` (ci) → component instruction. -/
def iMComponent (l : List Char) : Option InstrMatch :=
  match dropLitCI "component".data l with
  | some r =>
    if (r.takeWhile isPySpace).isEmpty then none
    else
      let r1 := r.dropWhile isPySpace
      let ds := r1.takeWhile isAsciiDigit
      if ds.isEmpty then none
      else
        match tailCap ['-', ':'] (r1.drop ds.length) with
        | some g =>
          some { type := "component", identifier := some ⟨ds⟩, title := ⟨g⟩,
                 applies_to := "following_questions" }
        | none => none
  | none => none

/-- Subject-component keyword alternatives of
`^(SYNONYMS?|ANTONYMS?|GRAMMAR|COMPREHENSION|VOCABULARY|LEXIS|STRUCTURE)…`:
keyword and whether it carries an optional plural `s`. -/
def subjectAlternatives : List (String × Bool) :=
  [("synonym", true), ("antonym", true), ("grammar", false),
   ("comprehension", false), ("vocabulary", false), ("lexis", false),
   ("structure", false)]

/-- Try one subject alternative; the capture of group 1 is the matched text
in its original case. -/
def iMSubjectOne (kw : List Char) (optS : Bool) (l : List Char) :
    Option InstrMatch :=
  match dropLitCI kw l with
  | some r =>
    let mk := fun (n : Nat) (g : List Char) =>
      let g0 := pyTitle ⟨l.take n⟩
      some { type := "subject_component", component := some g0, title := g0,
             instruction_text := ⟨g⟩,
             applies_to := "following_questions" : InstrMatch }
    if optS then
      match r with
      | c :: t =>
        if lowerChar c = 's' then
          (match tailCap [':'] t with
           | some g => mk (kw.length + 1) g
           | none =>
             match tailCap [':'] r with
             | some g => mk kw.length g
             | none => none)
        else
          (match tailCap [':'] r with
           | some g => mk kw.length g
           | none => none)
      | [] =>
        (match tailCap [':'] r with
         | some g => mk kw.length g
         | none => none)
    else
      match tailCap [':'] r with
      | some g => mk kw.length g
      | none => none
  | none => none

def iMSubject (l : List Char) : Option InstrMatch :=
  subjectAlternatives.foldl
    (fun acc kv =>
      match acc with
      | some m => some m
      | none => iMSubjectOne kv.1.data kv.2 l) none

/-- `^(READING|WRITING|LISTENING|SPEAKING)\s+SECTION\s*:?\s*(.+)` (ci) →
section instruction with the skill keyword as identifier. -/
def iMSkillSection (l : List Char) : Option InstrMatch :=
  ["reading", "writing", "listening", "speaking"].foldl
    (fun acc kw =>
      match acc with
      | some m => some m
      | none =>
        match dropLitCI kw.data l with
        | some r =>
          if (r.takeWhile isPySpace).isEmpty then none
          else
            match dropLitCI "section".data (r.dropWhile isPySpace) with
            | some r2 =>
              (match tailCap [':'] r2 with
               | some g =>
                 some { type := "section",
                        identifier := some ⟨l.take kw.length⟩, title := ⟨g⟩,
                        applies_to := "following_questions" }
               | none => none)
            | none => none
        | none => none) none

/-- Shared tail `QUESTIONS?\s+(\d+)\s*[-–]\s*(\d+)\s*:?\s*(.+)` of the two
range patterns. -/
def questionsRangeTail (r : List Char) : Option (Nat × Nat × List Char) :=
  match dropLitCI "question".data r with
  | some r2 =>
    let r3 := match r2 with
      | c :: t => if lowerChar c = 's' then t else r2
      | [] => r2
    if (r3.takeWhile isPySpace).isEmpty then none
    else
      let r4 := r3.dropWhile isPySpace
      let d1 := r4.takeWhile isAsciiDigit
      if d1.isEmpty then none
      else
        let r5 := (r4.drop d1.length).dropWhile isPySpace
        match r5 with
        | c :: t =>
          if c = '-' || c = '–' then
            let r6 := t.dropWhile isPySpace
            let d2 := r6.takeWhile isAsciiDigit
            if d2.isEmpty then none
            else
              match tailCap [':'] (r6.drop d2.length) with
              | some g => some (natOfDigits d1, natOfDigits d2, g)
              | none => none
          else none
        | [] => none
  | none => none

def mkRangeMatch (d1 d2 : Nat) (g : List Char) : InstrMatch :=
  { type := "range", start_question := some d1, end_question := some d2,
    title := "Questions " ++ Nat.repr d1 ++ "-" ++ Nat.repr d2,
    instruction_text := ⟨g⟩, applies_to := "question_range" }

/-- `^INSTRUCTIONS?\s+FOR\s+QUESTIONS?\s+(\d+)\s*[-–]\s*(\d+)\s*:?\s*(.+)`
(ci) → range instruction.  (Unreachable in practice: the general
`^INSTRUCTIONS?…` pattern is tried first and already matches.) -/
def iMInstrForQuestions (l : List Char) : Option InstrMatch :=
  match dropLitCI "instruction".data l with
  | some r =>
    let r1 := match r with
      | c :: t => if lowerChar c = 's' then t else r
      | [] => r
    if (r1.takeWhile isPySpace).isEmpty then none
    else
      match dropLitCI "for".data (r1.dropWhile isPySpace) with
      | some r2 =>
        if (r2.takeWhile isPySpace).isEmpty then none
        else
          match questionsRangeTail (r2.dropWhile isPySpace) with
          | some (d1, d2, g) => some (mkRangeMatch d1 d2 g)
          | none => none
      | none => none
  | none => none

/-- `^FOR\s+QUESTIONS?\s+(\d+)\s*[-–]\s*(\d+)\s*:?\s*(.+)` (ci) → range
instruction. -/
def iMForQuestions (l : List Char) : Option InstrMatch :=
  match dropLitCI "for".data l with
  | some r =>
    if (r.takeWhile isPySpace).isEmpty then none
    else
      match questionsRangeTail (r.dropWhile isPySpace) with
      | some (d1, d2, g) => some (mkRangeMatch d1 d2 g)
      | none => none
  | none => none

/-- `^([A-Z][A-Z\s&]+):\s*(.+)` (ci) → generic all-caps-phrase general
instruction. -/
def iMCapsPhrase (l : List Char) : Option InstrMatch :=
  match l with
  | c :: t =>
    if isAsciiLetter c then
      let cls := fun (d : Char) => isAsciiLetter d || isPySpace d || d = '&'
      let run := t.takeWhile cls
      if run.isEmpty then none
      else
        match t.drop run.length with
        | ':' :: rest =>
          let r1 := rest.dropWhile isPySpace
          let g := r1.takeWhile (fun d => d ≠ '\n')
          if !g.isEmpty then
            some { type := "general", title := ⟨c :: run⟩,
                   instruction_text := ⟨g⟩,
                   applies_to := "following_questions" }
          else if !(rest.takeWhile isPySpace).isEmpty then
            some { type := "general", title := ⟨c :: run⟩,
                   instruction_text := " ",
                   applies_to := "following_questions" }
          else none
        | _ => none
    else none
  | [] => none

/-- `DocumentParser._detect_instruction_pattern`: the eleven patterns tried
in source order on the stripped text. -/
def detect_instruction_pattern (text : String) : Option InstrMatch :=
  let ts := stripL text.data
  [iMInstructions, iMInstructionFor, iMGeneralInstructions, iMSection,
   iMPart, iMComponent, iMSubject, iMSkillSection, iMInstrForQuestions,
   iMForQuestions, iMCapsPhrase].foldl
    (fun acc f =>
      match acc with
      | some m => some m
      | none => f ts) none

end DocParser

namespace DocParser

/-! ### The DOCX line-classification loop
(`DocumentParser._extract_questions_from_docx`)

Paragraphs are modelled as plain strings: the embedding covers paragraphs
consisting of unformatted runs, for which `_docx_paragraph_to_html` returns
the paragraph text unchanged, and the no-op image pass
(`_extract_images_from_docx` is `pass` in the source) adds nothing.
`uuid.uuid4()` instruction ids are modelled by deterministic fresh names
`instr-<k>`; no claim depends on their values, only on their identity. -/

/-- The mutable `current_question` dict of the loop. -/
structure CurrentQ where
  question_text : String
  options : List String
  sub_questions : List SubQuestion
  marks : Nat
  images : List String
  question_number : Nat
  instruction_id : Option String
  correct_option : Option Nat := none
deriving DecidableEq, Repr

/-- An emitted MCQ draft (`_save_question`, `q_type == 'mcq'`). -/
structure McqOut where
  question_text : String
  question_type : String
  options : List String
  correct_option : Nat
  marks : Nat
  instruction_id : Option String
  question_number : Nat
deriving DecidableEq, Repr

/-- An emitted Theory draft (`_save_question`, theory branch). -/
structure TheoryOut where
  question_text : String
  question_type : String
  sub_questions : List SubQuestion
  marks : Nat
  instruction_id : Option String
  question_number : Nat
deriving DecidableEq, Repr

def sumSubMarks (subs : List SubQuestion) : Nat :=
  (subs.map SubQuestion.sub_marks).sum

/-- `DocumentParser._save_question`: an MCQ draft with fewer than two options
is dropped; a Theory draft with no sub-questions gets one synthesized from
the whole body and its question text cleared; an emitted Theory draft's marks
are the sum of its sub-marks. -/
def save_question (q : CurrentQ) (qType : String)
    (mcqList : List McqOut) (theoryList : List TheoryOut) :
    List McqOut × List TheoryOut :=
  if qType = "mcq" then
    if q.options.length < 2 then (mcqList, theoryList)
    else
      (mcqList ++
        [{ question_text := q.question_text, question_type := "mcq",
           options := q.options, correct_option := q.correct_option.getD 0,
           marks := q.marks, instruction_id := q.instruction_id,
           question_number := q.question_number }],
       theoryList)
  else
    let subs :=
      if q.sub_questions.isEmpty then
        [{ sub_number := "a", sub_text := q.question_text,
           sub_marks := q.marks : SubQuestion }]
      else q.sub_questions
    let qtext := if q.sub_questions.isEmpty then "" else q.question_text
    (mcqList,
     theoryList ++
       [{ question_text := qtext, question_type := "theory",
          sub_questions := subs, marks := sumSubMarks subs,
          instruction_id := q.instruction_id,
          question_number := q.question_number }])

/-- A stored instruction record of the loop. -/
structure Instr where
  id : String
  type : String
  title : String
  instruction_text : String
  full_text : String
  applies_to : String
  start_question : Option Nat
  end_question : Option Nat
  component : Option String
  identifier : Option String
  order : Nat
deriving DecidableEq, Repr

/-- Loop state of `_extract_questions_from_docx`: output lists, the open
question (with its `current_type`), the active instruction and the global
question counter. -/
structure LoopState where
  mcq : List McqOut
  theory : List TheoryOut
  instructions : List Instr
  current : Option (CurrentQ × String)
  currentInstr : Option Instr
  counter : Nat
deriving Repr

/-- Close the open question, if any: attach the active instruction id and
emit through `save_question` (`if current_question:` blocks of the loop). -/
def attachInstr : Option Instr → CurrentQ → CurrentQ
  | some ins, q => { q with instruction_id := some ins.id }
  | none, q => q

def closeCurrent (s : LoopState) : LoopState :=
  match s.current with
  | none => s
  | some (q, ty) =>
    let mt := save_question (attachInstr s.currentInstr q) ty s.mcq s.theory
    { s with mcq := mt.1, theory := mt.2, current := none }

/-- Create the instruction record for a formal instruction-pattern match. -/
def afterInstruction (im : InstrMatch) (p : String) (s : LoopState) :
    LoopState :=
  let ins : Instr :=
    { id := "instr-" ++ Nat.repr s.instructions.length, type := im.type,
      title := im.title, instruction_text := im.instruction_text,
      full_text := p, applies_to := im.applies_to,
      start_question := im.start_question, end_question := im.end_question,
      component := im.component, identifier := im.identifier,
      order := s.instructions.length }
  { s with instructions := s.instructions ++ [ins], currentInstr := some ins }

/-- Create the general instruction record for a standalone instruction. -/
def afterStandalone (text p : String) (s : LoopState) : LoopState :=
  let ins : Instr :=
    { id := "instr-" ++ Nat.repr s.instructions.length, type := "general",
      title := "Instructions", instruction_text := text, full_text := p,
      applies_to := "following_questions", start_question := none,
      end_question := none, component := none, identifier := none,
      order := s.instructions.length }
  { s with instructions := s.instructions ++ [ins], currentInstr := some ins }

/-- Open a new question draft (`question_counter += 1` and the new
`current_question` dict). -/
def openQuestion (qt text p : String) (s : LoopState) : LoopState :=
  let n := s.counter + 1
  let q : CurrentQ :=
    { question_text := clean_html_plain p true false,
      options := [], sub_questions := [],
      marks := extract_marks text, images := [],
      question_number := n,
      instruction_id := s.currentInstr.map Instr.id,
      correct_option := none }
  { s with counter := n,
           current := some (q, detect_question_type text qt) }

/-- Route a non-marker paragraph into the open question: MCQ option, Theory
sub-question, or continuation text. -/
def continueCurrent (q : CurrentQ) (ty : String) (text p : String)
    (s : LoopState) : LoopState :=
  if detect_option_pattern text && decide (ty = "mcq") then
    let isC := is_correct_option text
    let cleaned :=
      remove_correct_answer_markers (clean_html_plain p false true)
    let q1 :=
      { q with options := q.options ++ [cleaned],
               correct_option :=
                 if isC then some q.options.length else q.correct_option }
    { s with current := some (q1, ty) }
  else if detect_sub_question_pattern text && decide (ty = "theory") then
    let q1 :=
      { q with sub_questions := q.sub_questions ++ [parse_sub_question text] }
    { s with current := some (q1, ty) }
  else
    let q1 :=
      { q with question_text :=
          q.question_text ++ "<br>" ++ clean_html_plain p false false }
    { s with current := some (q1, ty) }

/-- One iteration of the paragraph loop. -/
def stepPara (qt : String) (s : LoopState) (p : String) : LoopState :=
  let text := pyStrip p
  if text = "" then s
  else
    match detect_instruction_pattern text with
    | some im => afterInstruction im p (closeCurrent s)
    | none =>
      if is_standalone_instruction text && s.current.isNone then
        afterStandalone text p s
      else if detect_question_pattern text then
        openQuestion qt text p (closeCurrent s)
      else
        match s.current with
        | some (q, ty) => continueCurrent q ty text p s
        | none => s

/-- One step of `_process_instruction_ranges` for a single MCQ draft:
range-type instructions assign their id to in-range questions that have none
yet. -/
def assignRangeM (allLen : Nat) (q : McqOut) (ins : Instr) : McqOut :=
  if ins.applies_to = "question_range" then
    let sq := ins.start_question.getD 1
    let eq := ins.end_question.getD allLen
    if sq ≤ q.question_number ∧ q.question_number ≤ eq ∧
        q.instruction_id = none then
      { q with instruction_id := some ins.id }
    else q
  else q

/-- `assignRangeM` for Theory drafts. -/
def assignRangeT (allLen : Nat) (q : TheoryOut) (ins : Instr) : TheoryOut :=
  if ins.applies_to = "question_range" then
    let sq := ins.start_question.getD 1
    let eq := ins.end_question.getD allLen
    if sq ≤ q.question_number ∧ q.question_number ≤ eq ∧
        q.instruction_id = none then
      { q with instruction_id := some ins.id }
    else q
  else q

/-- Result record of `_extract_questions_from_docx` (the fields the claims
concern; the returned totals are the list lengths). -/
structure ParseOut where
  mcq_questions : List McqOut
  theory_questions : List TheoryOut
  instructions : List Instr
deriving Repr

/-- `DocumentParser._extract_questions_from_docx` on a stream of plain-text
paragraphs: fold the loop, close the last question, and run the
instruction-range pass (which touches only `instruction_id`). -/
def extract_questions_from_docx (paras : List String)
    (question_type : String) : ParseOut :=
  let s0 : LoopState :=
    { mcq := [], theory := [], instructions := [], current := none,
      currentInstr := none, counter := 0 }
  let s1 := closeCurrent (paras.foldl (stepPara question_type) s0)
  let allLen := s1.mcq.length + s1.theory.length
  { mcq_questions :=
      s1.mcq.map (fun q => s1.instructions.foldl (assignRangeM allLen) q),
    theory_questions :=
      s1.theory.map (fun q => s1.instructions.foldl (assignRangeT allLen) q),
    instructions := s1.instructions }

end DocParser

/-- C8: when the line-classification parser closes a unit classified as MCQ,
`_save_question` appends it to the MCQ output list only if it has at least 2
captured options; with fewer than 2 options the unit is dropped entirely,
both output lists are returned unchanged, and no one-option question is ever
emitted. -/
theorem c8_save_question_mcq (q : DocParser.CurrentQ)
    (mcqList : List DocParser.McqOut) (theoryList : List DocParser.TheoryOut) :
    (q.options.length < 2 →
      DocParser.save_question q "mcq" mcqList theoryList =
        (mcqList, theoryList)) ∧
    (2 ≤ q.options.length →
      DocParser.save_question q "mcq" mcqList theoryList =
        (mcqList ++
          [{ question_text := q.question_text, question_type := "mcq",
             options := q.options, correct_option := q.correct_option.getD 0,
             marks := q.marks, instruction_id := q.instruction_id,
             question_number := q.question_number }],
         theoryList)) ∧
    (∀ d ∈ (DocParser.save_question q "mcq" mcqList theoryList).1,
      d ∈ mcqList ∨ 2 ≤ d.options.length) := by
  refine ⟨?_, ?_, ?_⟩
  · intro h
    unfold DocParser.save_question
    simp [h]
  · intro h
    unfold DocParser.save_question
    simp [Nat.not_lt.mpr h]
  · intro d hd
    unfold DocParser.save_question at hd
    by_cases h : q.options.length < 2
    · simp [h] at hd
      exact Or.inl hd
    · simp [h] at hd
      rcases hd with hd | hd
      · exact Or.inl hd
      · subst hd
        exact Or.inr (Nat.not_lt.mp h)

/-- Witness for `c8_save_question_mcq`: a one-option unit is dropped, a
two-option unit is appended, and the emitted draft has two options. -/
theorem c8_save_question_mcq_witness :
    (DocParser.save_question
      { question_text := "Q", options := ["only"], sub_questions := [],
        marks := 1, images := [], question_number := 1,
        instruction_id := none, correct_option := none } "mcq" [] [] =
      ([], [])) ∧
    (DocParser.save_question
      { question_text := "Q", options := ["x", "y"], sub_questions := [],
        marks := 1, images := [], question_number := 1,
        instruction_id := none, correct_option := none } "mcq" [] [] =
      ([{ question_text := "Q", question_type := "mcq",
          options := ["x", "y"], correct_option := 0, marks := 1,
          instruction_id := none, question_number := 1 }], [])) :=
  ⟨(c8_save_question_mcq _ [] []).1 (by decide),
   (c8_save_question_mcq _ [] []).2.1 (by decide)⟩

/-- C9: closing a Theory unit with zero captured sub-questions emits exactly
one synthesized sub-question (`sub_number = "a"`, `sub_text` the whole body,
`sub_marks` the question's extracted marks) with the separate question-text
field cleared; and every emitted Theory draft's `marks` equals the sum of its
sub-questions' `sub_marks`. -/
theorem c9_save_question_theory (q : DocParser.CurrentQ)
    (mcqList : List DocParser.McqOut) (theoryList : List DocParser.TheoryOut) :
    (q.sub_questions = [] →
      DocParser.save_question q "theory" mcqList theoryList =
        (mcqList,
         theoryList ++
           [{ question_text := "", question_type := "theory",
              sub_questions :=
                [{ sub_number := "a", sub_text := q.question_text,
                   sub_marks := q.marks }],
              marks := q.marks, instruction_id := q.instruction_id,
              question_number := q.question_number }])) ∧
    (∀ d ∈ (DocParser.save_question q "theory" mcqList theoryList).2,
      d ∈ theoryList ∨ d.marks = DocParser.sumSubMarks d.sub_questions) := by
  constructor
  · intro h
    unfold DocParser.save_question
    simp [h, DocParser.sumSubMarks]
  · intro d hd
    unfold DocParser.save_question at hd
    simp at hd
    rcases hd with hd | hd
    · exact Or.inl hd
    · subst hd
      exact Or.inr rfl

/-- Witness for `c9_save_question_theory`: a theory unit with no
sub-questions and 3 marks produces the synthesized single-sub-question
draft, whose marks equal its sub-marks sum. -/
theorem c9_save_question_theory_witness :
    (DocParser.save_question
      { question_text := "Explain erosion", options := [],
        sub_questions := [], marks := 3, images := [], question_number := 1,
        instruction_id := none, correct_option := none } "theory" [] [] =
      ([],
       [{ question_text := "", question_type := "theory",
          sub_questions :=
            [{ sub_number := "a", sub_text := "Explain erosion",
               sub_marks := 3 }],
          marks := 3, instruction_id := none, question_number := 1 }])) ∧
    ∀ d ∈ (DocParser.save_question
      { question_text := "Explain erosion", options := [],
        sub_questions := [], marks := 3, images := [], question_number := 1,
        instruction_id := none, correct_option := none } "theory" [] []).2,
      d ∈ ([] : List DocParser.TheoryOut) ∨
        d.marks = DocParser.sumSubMarks d.sub_questions :=
  ⟨(c9_save_question_theory _ [] []).1 rfl,
   (c9_save_question_theory _ [] []).2⟩

/-- The two-question fixture for C6: an MCQ followed by a Theory question. -/
def c6paras : List String :=
  ["1. Select the correct answer from below",
   "A. London",
   "B. Paris (correct)",
   "2. Explain the process of photosynthesis in detail"]

/-- C6 counterexample: the claim says the j-th Theory draft of a document has
`question_number = j`.  On a document whose first question is an MCQ and
whose second (the first Theory question) follows it, the single Theory draft
is emitted with `question_number = 2`, not 1 — the counter is global across
both types. -/
theorem c6_counterexample :
    ((DocParser.extract_questions_from_docx c6paras "auto").mcq_questions.map
        DocParser.McqOut.question_number = [1]) ∧
    ((DocParser.extract_questions_from_docx c6paras "auto").theory_questions.map
        DocParser.TheoryOut.question_number = [2]) ∧
    ((DocParser.extract_questions_from_docx c6paras "auto").theory_questions.map
        DocParser.TheoryOut.question_number ≠ [1]) := by
  decide

namespace DocParser

def mcqNums (l : List McqOut) : List Nat := l.map McqOut.question_number

def theoryNums (l : List TheoryOut) : List Nat := l.map TheoryOut.question_number

/-- Relation between the open question (if any), the counter and the numbers
already emitted: with a question open, its number is the current counter
value and every emitted number is strictly below it; otherwise every emitted
number is at most the counter. -/
def currentOk : Option (CurrentQ × String) → Nat → List Nat → Prop
  | none, counter, ns => ∀ n ∈ ns, n ≤ counter
  | some qt, counter, ns => qt.1.question_number = counter ∧ ∀ n ∈ ns, n < counter

/-- Loop invariant for the global question counter: emitted numbers are
strictly increasing within each output list, never shared between the lists,
and bounded by the counter as described by `currentOk`. -/
def NumsInv (s : LoopState) : Prop :=
  List.Pairwise (· < ·) (mcqNums s.mcq) ∧
  List.Pairwise (· < ·) (theoryNums s.theory) ∧
  (∀ n ∈ mcqNums s.mcq, n ∉ theoryNums s.theory) ∧
  currentOk s.current s.counter (mcqNums s.mcq ++ theoryNums s.theory)

theorem pairwise_append_one {L : List Nat} {k : Nat}
    (h : List.Pairwise (· < ·) L) (hk : ∀ n ∈ L, n < k) :
    List.Pairwise (· < ·) (L ++ [k]) := by
  refine List.pairwise_append.mpr ⟨h, List.pairwise_singleton _ _, ?_⟩
  intro a ha b hb
  rw [List.mem_singleton] at hb
  subst hb
  exact hk a ha

/-- `save_question` leaves the emitted numbers unchanged or appends the
closed question's number to exactly one of the two lists. -/
theorem save_question_nums (q : CurrentQ) (ty : String)
    (m : List McqOut) (t : List TheoryOut) :
    (mcqNums (save_question q ty m t).1 = mcqNums m ∧
     theoryNums (save_question q ty m t).2 = theoryNums t) ∨
    (mcqNums (save_question q ty m t).1 = mcqNums m ++ [q.question_number] ∧
     theoryNums (save_question q ty m t).2 = theoryNums t) ∨
    (mcqNums (save_question q ty m t).1 = mcqNums m ∧
     theoryNums (save_question q ty m t).2 =
       theoryNums t ++ [q.question_number]) := by
  unfold save_question
  by_cases hty : ty = "mcq"
  · by_cases hlen : q.options.length < 2
    · exact Or.inl (by simp [hty, hlen, mcqNums, theoryNums])
    · exact Or.inr (Or.inl (by simp [hty, hlen, mcqNums, theoryNums]))
  · exact Or.inr (Or.inr (by simp [hty, mcqNums, theoryNums]))



theorem attachInstr_number (oi : Option Instr) (q : CurrentQ) :
    (attachInstr oi q).question_number = q.question_number := by
  cases oi <;> rfl

theorem closeCurrent_of_none {s : LoopState} (hc : s.current = none) :
    closeCurrent s = s := by
  unfold closeCurrent
  rw [hc]

theorem closeCurrent_of_some {s : LoopState} {q : CurrentQ} {ty : String}
    (hc : s.current = some (q, ty)) :
    closeCurrent s =
      { s with
        mcq := (save_question (attachInstr s.currentInstr q) ty s.mcq s.theory).1,
        theory := (save_question (attachInstr s.currentInstr q) ty s.mcq s.theory).2,
        current := none } := by
  unfold closeCurrent
  rw [hc]

/-- Closing the open question preserves the invariant, empties `current` and
keeps the counter. -/
theorem closeCurrent_inv {s : LoopState} (h : NumsInv s) :
    NumsInv (closeCurrent s) ∧ (closeCurrent s).current = none ∧
      (closeCurrent s).counter = s.counter := by
  obtain ⟨h1, h2, h3, h4⟩ := h
  cases hc : s.current with
  | none =>
    rw [closeCurrent_of_none hc]
    rw [hc] at h4
    exact ⟨⟨h1, h2, h3, by rw [hc]; exact h4⟩, hc, rfl⟩
  | some qt =>
    obtain ⟨q, ty⟩ := qt
    rw [hc] at h4
    obtain ⟨hnum, hlt⟩ := h4
    rw [closeCurrent_of_some hc]
    refine ⟨?_, rfl, rfl⟩
    unfold NumsInv
    simp only [currentOk]
    have hltm : ∀ n ∈ mcqNums s.mcq, n < s.counter := fun n hn =>
      hlt n (List.mem_append_left _ hn)
    have hltt : ∀ n ∈ theoryNums s.theory, n < s.counter := fun n hn =>
      hlt n (List.mem_append_right _ hn)
    have hq1 : (attachInstr s.currentInstr q).question_number = s.counter := by
      rw [attachInstr_number]
      exact hnum
    rcases save_question_nums (attachInstr s.currentInstr q) ty s.mcq s.theory
      with ⟨hm, ht⟩ | ⟨hm, ht⟩ | ⟨hm, ht⟩
    · rw [hm, ht]
      refine ⟨h1, h2, h3, ?_⟩
      intro n hn
      exact Nat.le_of_lt (hlt n hn)
    · rw [hq1] at hm
      rw [hm, ht]
      refine ⟨pairwise_append_one h1 hltm, h2, ?_, ?_⟩
      · intro n hn
        rw [List.mem_append, List.mem_singleton] at hn
        rcases hn with hn | hn
        · exact h3 n hn
        · subst hn
          intro hmem
          exact absurd (hltt _ hmem) (lt_irrefl _)
      · intro n hn
        rw [List.mem_append, List.mem_append, List.mem_singleton] at hn
        rcases hn with (hn | hn) | hn
        · exact Nat.le_of_lt (hltm n hn)
        · subst hn
          exact Nat.le_refl _
        · exact Nat.le_of_lt (hltt n hn)
    · rw [hq1] at ht
      rw [hm, ht]
      refine ⟨h1, pairwise_append_one h2 hltt, ?_, ?_⟩
      · intro n hn
        rw [List.mem_append, List.mem_singleton]
        push_neg
        refine ⟨h3 n hn, ?_⟩
        intro hkk
        have hlt' := hltm n hn
        rw [hkk] at hlt'
        exact absurd hlt' (lt_irrefl _)
      · intro n hn
        rw [List.mem_append] at hn
        rcases hn with hn | hn
        · exact Nat.le_of_lt (hltm n hn)
        · rw [List.mem_append, List.mem_singleton] at hn
          rcases hn with hn | hn
          · exact Nat.le_of_lt (hltt n hn)
          · subst hn
            exact Nat.le_refl _

theorem NumsInv_afterInstruction (im : InstrMatch) (p : String)
    (x : LoopState) : NumsInv (afterInstruction im p x) ↔ NumsInv x :=
  Iff.rfl

theorem NumsInv_afterStandalone (t p : String) (x : LoopState) :
    NumsInv (afterStandalone t p x) ↔ NumsInv x :=
  Iff.rfl

theorem openQuestion_inv (qt text p : String) {x : LoopState}
    (h : NumsInv x) (hcur : x.current = none) :
    NumsInv (openQuestion qt text p x) := by
  obtain ⟨h1, h2, h3, h4⟩ := h
  rw [hcur] at h4
  refine ⟨h1, h2, h3, rfl, ?_⟩
  intro n hn
  exact Nat.lt_succ_of_le (h4 n hn)

theorem continueCurrent_inv {s : LoopState} {q : CurrentQ} {ty : String}
    (text p : String) (h : NumsInv s) (hc : s.current = some (q, ty)) :
    NumsInv (continueCurrent q ty text p s) := by
  obtain ⟨h1, h2, h3, h4⟩ := h
  rw [hc] at h4
  obtain ⟨hnum, hlt⟩ := h4
  unfold continueCurrent
  split
  · exact ⟨h1, h2, h3, hnum, hlt⟩
  · split
    · exact ⟨h1, h2, h3, hnum, hlt⟩
    · exact ⟨h1, h2, h3, hnum, hlt⟩

theorem stepPara_inv (qt : String) {s : LoopState} (h : NumsInv s)
    (p : String) : NumsInv (stepPara qt s p) := by
  unfold stepPara
  simp only []
  split
  · exact h
  · split
    · exact (NumsInv_afterInstruction _ _ _).mpr (closeCurrent_inv h).1
    · split
      · exact (NumsInv_afterStandalone _ _ _).mpr h
      · split
        · exact openQuestion_inv _ _ _ (closeCurrent_inv h).1
            (closeCurrent_inv h).2.1
        · split
          · rename_i q ty hsc
            exact continueCurrent_inv _ _ h hsc
          · exact h

theorem foldl_stepPara_inv (qt : String) :
    ∀ (paras : List String) (s : LoopState), NumsInv s →
      NumsInv (paras.foldl (stepPara qt) s)
  | [], _, h => h
  | p :: ps, s, h =>
    foldl_stepPara_inv qt ps (stepPara qt s p) (stepPara_inv qt h p)

theorem assignRangeM_number (allLen : Nat) (q : McqOut) (ins : Instr) :
    (assignRangeM allLen q ins).question_number = q.question_number := by
  unfold assignRangeM
  simp only []
  split
  · split
    · rfl
    · rfl
  · rfl

theorem assignRangeT_number (allLen : Nat) (q : TheoryOut) (ins : Instr) :
    (assignRangeT allLen q ins).question_number = q.question_number := by
  unfold assignRangeT
  simp only []
  split
  · split
    · rfl
    · rfl
  · rfl

theorem foldl_assignRangeM_number (allLen : Nat) :
    ∀ (instrs : List Instr) (q : McqOut),
      (instrs.foldl (assignRangeM allLen) q).question_number =
        q.question_number
  | [], _ => rfl
  | ins :: instrs, q => by
    rw [List.foldl_cons, foldl_assignRangeM_number allLen instrs,
      assignRangeM_number]

theorem foldl_assignRangeT_number (allLen : Nat) :
    ∀ (instrs : List Instr) (q : TheoryOut),
      (instrs.foldl (assignRangeT allLen) q).question_number =
        q.question_number
  | [], _ => rfl
  | ins :: instrs, q => by
    rw [List.foldl_cons, foldl_assignRangeT_number allLen instrs,
      assignRangeT_number]

end DocParser

/-- C6 (amended): `question_number` is drawn from a single counter shared by
both question types — the k-th question start detected in the document gets
number k whether it becomes an MCQ draft, a Theory draft or is dropped.
Consequently, for every parsed document the question numbers are strictly
increasing within the MCQ output list and within the Theory output list, and
no number ever appears in both lists (per-type 1-based numbering would give
both first drafts the number 1).  The i-th draft of a type does not in
general carry number i. -/
theorem c6_numbering_amended (paras : List String) (qt : String) :
    List.Pairwise (· < ·)
      ((DocParser.extract_questions_from_docx paras qt).mcq_questions.map
        DocParser.McqOut.question_number) ∧
    List.Pairwise (· < ·)
      ((DocParser.extract_questions_from_docx paras qt).theory_questions.map
        DocParser.TheoryOut.question_number) ∧
    ∀ n ∈ (DocParser.extract_questions_from_docx paras qt).mcq_questions.map
        DocParser.McqOut.question_number,
      n ∉ (DocParser.extract_questions_from_docx paras qt).theory_questions.map
        DocParser.TheoryOut.question_number := by
  have h0 : DocParser.NumsInv
      { mcq := [], theory := [], instructions := [], current := none,
        currentInstr := none, counter := 0 } := by
    refine ⟨List.Pairwise.nil, List.Pairwise.nil, ?_, ?_⟩
    · intro n hn
      simp [DocParser.mcqNums] at hn
    · intro n hn
      simp [DocParser.mcqNums, DocParser.theoryNums] at hn
  have h1 := DocParser.foldl_stepPara_inv qt paras _ h0
  have h2 := (DocParser.closeCurrent_inv h1).1
  obtain ⟨hm, ht, hd, _⟩ := h2
  unfold DocParser.extract_questions_from_docx
  simp only []
  set s1 := DocParser.closeCurrent
    (paras.foldl (DocParser.stepPara qt)
      { mcq := [], theory := [], instructions := [], current := none,
        currentInstr := none, counter := 0 }) with hs1
  have hmapM : (s1.mcq.map (fun q =>
      s1.instructions.foldl
        (DocParser.assignRangeM (s1.mcq.length + s1.theory.length)) q)).map
        DocParser.McqOut.question_number =
      s1.mcq.map DocParser.McqOut.question_number := by
    rw [List.map_map]
    apply List.map_congr_left
    intro q _
    exact DocParser.foldl_assignRangeM_number _ _ q
  have hmapT : (s1.theory.map (fun q =>
      s1.instructions.foldl
        (DocParser.assignRangeT (s1.mcq.length + s1.theory.length)) q)).map
        DocParser.TheoryOut.question_number =
      s1.theory.map DocParser.TheoryOut.question_number := by
    rw [List.map_map]
    apply List.map_congr_left
    intro q _
    exact DocParser.foldl_assignRangeT_number _ _ q
  refine ⟨?_, ?_, ?_⟩
  · rw [hmapM]
    exact hm
  · rw [hmapT]
    exact ht
  · intro n hn
    rw [hmapM] at hn
    rw [hmapT]
    exact hd n hn

/-! ## `SnapshotParser` (`app/utils/snapshot_parser.py`)

Paragraphs are modelled as plain text plus the images anchored to their runs
(already resolved through the relationship map, as `_capture_paragraph_content`
does); the embedding covers unformatted runs, for which the run-HTML assembly
returns the paragraph text unchanged. -/

namespace Snapshot

/-- One paragraph as seen by the snapshot parser. -/
structure SnapPara where
  text : String
  images : List String
deriving DecidableEq, Repr

/-- One captured content block (`_capture_paragraph_content` result). -/
structure SnapContent where
  text : String
  images : List String
deriving DecidableEq, Repr

/-- A question under construction / in the output list. -/
structure SnapQuestion where
  question_number : Nat
  question_text : String
  question_image : Option String
  options : List String
  option_images : List (Option String)
  correct_option : Nat
  marks : Nat
  content_type : String
  has_rich_content : Bool
deriving DecidableEq, Repr

/-- Character class `[\.\)\:\-\s]` of the snapshot question patterns (note:
no comma, unlike the line-classification parser). -/
def punctSnap (c : Char) : Bool :=
  c = '.' || c = ')' || c = ':' || c = '-' || isPySpace c

/-- `^\s*(\d+)[\.\)\:\-\s]` — one punctuation character, match ends after
it. -/
def sqPatNum (l : List Char) : Option (Nat × List Char) :=
  let l1 := l.dropWhile isPySpace
  let ds := l1.takeWhile isAsciiDigit
  if ds.isEmpty then none
  else
    match l1.dropWhile isAsciiDigit with
    | c :: rest => if punctSnap c then some (natOfDigits ds, rest) else none
    | [] => none

/-- `^\s*Q\.?\s*(\d+)[\.\)\:\-\s]*` (ci). -/
def sqPatQ (l : List Char) : Option (Nat × List Char) :=
  match l.dropWhile isPySpace with
  | c :: t =>
    if lowerChar c = 'q' then
      let t1 := match t with | '.' :: u => u | _ => t
      let t2 := t1.dropWhile isPySpace
      let ds := t2.takeWhile isAsciiDigit
      if ds.isEmpty then none
      else some (natOfDigits ds, (t2.dropWhile isAsciiDigit).dropWhile punctSnap)
    else none
  | [] => none

/-- `^\s*Question\s*\.?\s*(\d+)` (ci). -/
def sqPatQuestion (l : List Char) : Option (Nat × List Char) :=
  match dropLitCI "question".data (l.dropWhile isPySpace) with
  | some r =>
    let r1 := r.dropWhile isPySpace
    let r2 := match r1 with | '.' :: u => u | _ => r1
    let r3 := r2.dropWhile isPySpace
    let ds := r3.takeWhile isAsciiDigit
    if ds.isEmpty then none
    else some (natOfDigits ds, r3.dropWhile isAsciiDigit)
  | none => none

/-- `^\s*\((\d+)\)`. -/
def sqPatParen (l : List Char) : Option (Nat × List Char) :=
  match l.dropWhile isPySpace with
  | '(' :: t =>
    let ds := t.takeWhile isAsciiDigit
    if ds.isEmpty then none
    else
      match t.dropWhile isAsciiDigit with
      | ')' :: rest => some (natOfDigits ds, rest)
      | _ => none
  | _ => none

/-- `^\s*No\.?\s*(\d+)` (ci). -/
def sqPatNo (l : List Char) : Option (Nat × List Char) :=
  match dropLitCI "no".data (l.dropWhile isPySpace) with
  | some r =>
    let r1 := match r with | '.' :: u => u | _ => r
    let r2 := r1.dropWhile isPySpace
    let ds := r2.takeWhile isAsciiDigit
    if ds.isEmpty then none
    else some (natOfDigits ds, r2.dropWhile isAsciiDigit)
  | none => none

/-- `SnapshotParser._detect_question_number`: first matching pattern wins,
returning the number and the stripped text after the match. -/
def detect_question_number (text : String) : Option (Nat × String) :=
  [sqPatNum, sqPatQ, sqPatQuestion, sqPatParen, sqPatNo].foldl
    (fun acc f =>
      match acc with
      | some r => some r
      | none =>
        match f text.data with
        | some (n, rest) => some (n, ⟨stripL rest⟩)
        | none => none) none

def isLetterAH (c : Char) : Bool := ('a' ≤ c && c ≤ 'h') || ('A' ≤ c && c ≤ 'H')

/-- `SnapshotParser._detect_option_letter`: the three option patterns
`^\s*([A-Ha-h])[\.\)\:\-\s]`, `^\s*\(([A-Ha-h])\)`, `^\s*([A-Ha-h])\s+`;
returns the uppercased letter and the stripped text after the match. -/
def detect_option_letter (text : String) : Option (Char × String) :=
  let l := text.data.dropWhile isPySpace
  let p1 := match l with
    | c :: p :: rest =>
      if isLetterAH c && punctSnap p then some (upperChar c, rest) else none
    | _ => none
  match p1 with
  | some (c, rest) => some (c, ⟨stripL rest⟩)
  | none =>
    let p2 := match l with
      | '(' :: c :: ')' :: rest =>
        if isLetterAH c then some (upperChar c, rest) else none
      | _ => none
    match p2 with
    | some (c, rest) => some (c, ⟨stripL rest⟩)
    | none =>
      match l with
      | c :: p :: rest =>
        if isLetterAH c && isPySpace p then
          some (upperChar c, ⟨stripL (rest.dropWhile isPySpace)⟩)
        else none
      | _ => none

/-- `\bcorrect\b` search with word boundaries on both sides. -/
def hasWordB (w : List Char) : Option Char → List Char → Bool
  | _, [] => false
  | prev, l@(c :: t) =>
    ((match prev with
      | none => true
      | some pc => !isWordChar pc) &&
     beginsWith w l &&
     (match l.drop w.length with
      | d :: _ => !isWordChar d
      | [] => true)) ||
    hasWordB w (some c) t

/-- `SnapshotParser._is_marked_correct`: any of the nine correct markers
found in the lowercased text. -/
def is_marked_correct (text : String) : Bool :=
  let tl := lowerL text.data
  hasSub "(correct)".data tl || hasSub "[correct]".data tl ||
  hasSub "*correct*".data tl || hasWordB "correct".data none tl ||
  hasSub "✓".data tl || hasSub "✔".data tl || hasSub "→".data tl ||
  hasSub "(answer)".data tl || hasSub "[answer]".data tl

/-- `SnapshotParser._capture_paragraph_content` on a plain paragraph: with
`initial_text` given, the run text is not re-appended; otherwise the run text
(the paragraph text) is the content.  Images always come from the
paragraph's runs. -/
def capture_paragraph_content (p : SnapPara) (initial : Option String) :
    SnapContent :=
  { text := match initial with
      | some t => t
      | none => p.text,
    images := p.images }

/-! ### Math normalization (`SnapshotParser._normalize_math_html`) -/

def isAlnumAscii (c : Char) : Bool := isAsciiLetter c || isAsciiDigit c

/-- `([A-Za-z0-9\)\]])\^([A-Za-z0-9]+)` → `base<sup>exp</sup>`. -/
def caretSub : Nat → List Char → List Char
  | 0, l => l
  | _, [] => []
  | Nat.succ fuel, c :: t =>
    if isAlnumAscii c || c = ')' || c = ']' then
      match t with
      | '^' :: u =>
        let e := u.takeWhile isAlnumAscii
        if e.isEmpty then c :: caretSub fuel t
        else
          c :: ("<sup>".data ++ e ++ "</sup>".data) ++
            caretSub fuel (u.dropWhile isAlnumAscii)
      | _ => c :: caretSub fuel t
    else c :: caretSub fuel t

/-- `([0-9])\^o\b` (ci) → `digit°`. -/
def degreeSub : Nat → List Char → List Char
  | 0, l => l
  | _, [] => []
  | Nat.succ fuel, c :: t =>
    if isAsciiDigit c then
      match t with
      | '^' :: o :: u =>
        if lowerChar o = 'o' &&
            (match u with
             | d :: _ => !isWordChar d
             | [] => true) then
          c :: '°' :: degreeSub fuel u
        else c :: degreeSub fuel t
      | _ => c :: degreeSub fuel t
    else c :: degreeSub fuel t

/-- The middle-line class `[\-\–\—\_\=─-╿\s]`. -/
def fracMidChar (c : Char) : Bool :=
  c = '-' || c = '–' || c = '—' || c = '_' || c = '=' ||
  (0x2500 ≤ c.toNat && c.toNat ≤ 0x257F) || isPySpace c

/-- The fraction rendering produced by `fraction_replacer`. -/
def fracRepl (num den : List Char) : List Char :=
  "<span class=\"fraction\"><span class=\"num\">".data ++ num ++
  "</span><span class=\"slash\">/</span><span class=\"den\">".data ++ den ++
  "</span></span>".data

/-- Body of the stacked-fraction patterns after the `(?:^|<br>)` anchor:
`(\d{1,4})` (optionally `<br>` + 1–50 middle-line chars) `<br>` `(\d{1,4})`
followed by the `(?=(?:<br>|$))` lookahead.  Returns numerator, denominator
and the rest (at the lookahead position). -/
def fracBody (withMid : Bool) (l : List Char) :
    Option (List Char × List Char × List Char) :=
  let num := l.takeWhile isAsciiDigit
  if num.isEmpty || 4 < num.length then none
  else
    let r := l.drop num.length
    let afterMid :=
      if withMid then
        match r with
        | '<' :: 'b' :: 'r' :: '>' :: u =>
          let mid := u.takeWhile fracMidChar
          if mid.isEmpty || 50 < mid.length then none
          else some (u.drop mid.length)
        | _ => none
      else some r
    match afterMid with
    | some r2 =>
      (match r2 with
       | '<' :: 'b' :: 'r' :: '>' :: u =>
         let den := u.takeWhile isAsciiDigit
         if den.isEmpty || 4 < den.length then none
         else
           let rest := u.drop den.length
           if rest.isEmpty || beginsWith "<br>".data rest then
             some (num, den, rest)
           else none
       | _ => none)
    | none => none

/-- One `re.sub` pass for a stacked-fraction pattern; `atStart` tracks
whether the scanner sits at position 0 (where the `^` alternative applies).
A match consumes its leading `<br>` (if any), which the replacement does not
re-emit; the trailing `<br>` is a lookahead and stays. -/
def fracSub (withMid : Bool) : Bool → Nat → List Char → List Char
  | _, _, [] => []
  | _, 0, l => l
  | atStart, Nat.succ fuel, l@(c :: t) =>
    let tryHere :=
      if atStart then
        match fracBody withMid l with
        | some (n, d, rest) => some (fracRepl n d, rest)
        | none => none
      else none
    match tryHere with
    | some (repl, rest) => repl ++ fracSub withMid false fuel rest
    | none =>
      match l with
      | '<' :: 'b' :: 'r' :: '>' :: u =>
        (match fracBody withMid u with
         | some (n, d, rest) => fracRepl n d ++ fracSub withMid false fuel rest
         | none => c :: fracSub withMid false fuel t)
      | _ => c :: fracSub withMid false fuel t

/-- `SnapshotParser._normalize_math_html`: caret exponents, trailing `^o`
degrees, then the two stacked-fraction substitutions. -/
def normalize_math_html (html : String) : String :=
  let l0 := html.data
  let l1 := caretSub l0.length l0
  let l2 := degreeSub l1.length l1
  let l3 := fracSub true true l2.length l2
  let l4 := fracSub false true l3.length l3
  ⟨l4⟩

end Snapshot

namespace Snapshot

/-- Anchored case-insensitive literal matcher for `gsubGeneric`. -/
def litMatchCI (pat : List Char) (l : List Char) : Option (List Char) :=
  dropLitCI pat l

/-- Context matcher for `\bcorrect\b`-style word markers. -/
def wordMatchCI (w : List Char) (prev : Option Char) (l : List Char) :
    Option (List Char) :=
  let boundary := match prev with
    | none => true
    | some pc => !isWordChar pc
  if !boundary then none
  else
    match dropLitCI w l with
    | some r =>
      (match r with
       | d :: _ => if !isWordChar d then some r else none
       | [] => some r)
    | none => none

/-- Remove the nine `correct_markers` regexes from an option text
(`_finalize_option`: `re.sub(marker, '', option_text, flags=re.IGNORECASE)`
for each marker in order). -/
def removeCorrectMarkersSnap (s : String) : String :=
  let step := fun (acc : List Char)
      (m : Option Char → List Char → Option (List Char)) =>
    gsubCtx m [] none acc.length acc
  let l := [DocParser.noCtx (litMatchCI "(correct)".data),
            DocParser.noCtx (litMatchCI "[correct]".data),
            DocParser.noCtx (litMatchCI "*correct*".data),
            wordMatchCI "correct".data,
            DocParser.noCtx (litMatchCI "✓".data),
            DocParser.noCtx (litMatchCI "✔".data),
            DocParser.noCtx (litMatchCI "→".data),
            DocParser.noCtx (litMatchCI "(answer)".data),
            DocParser.noCtx (litMatchCI "[answer]".data)].foldl step s.data
  ⟨l⟩

/-- Matcher for HTML tags `<[^>]*>` (a `<` with a later `>`). -/
def tagMatch (l : List Char) : Option (List Char) :=
  match l with
  | '<' :: t =>
    (match t.dropWhile (fun c => c ≠ '>') with
     | '>' :: rest => some rest
     | _ => none)
  | _ => none

/-- The eight markers stripped by `_normalize_final_question`'s local
`strip_html` (no `\bcorrect\b` here). -/
def stripHtmlMarkers : List String :=
  ["(correct)", "[correct]", "*correct*", "✓", "✔", "→",
   "(answer)", "[answer]"]

/-- The canonical comparison key of `_normalize_final_question.strip_html`:
markup removed, each known correct-marker removed (with a `strip` after each
substitution, as the source does). -/
def stripHtmlKey (s : String) : String :=
  let b0 := stripL (gsubGeneric tagMatch [] s.data.length s.data)
  let b1 := stripHtmlMarkers.foldl
    (fun acc m =>
      stripL (gsubGeneric (litMatchCI m.data) [] acc.length acc)) b0
  ⟨b1⟩

/-- `SnapshotParser._normalize_final_question`: drop empty options, collapse
options whose lowercased canonical key repeats (keeping the first
occurrence), and remap `correct_option` through the old-to-new index map,
falling back to a canonical-text lookup and defaulting to 0. -/
def normalize_final_question (q : SnapQuestion) : SnapQuestion :=
  if q.options.isEmpty then q
  else
    let oimgs := q.option_images ++
      List.replicate (q.options.length - q.option_images.length) none
    let st := q.options.enum.foldl
      (fun (acc : List (String × Nat) × List String ×
              List (Option String) × List (Nat × Nat))
          (p : Nat × String) =>
        let seen := acc.1
        let newOpts := acc.2.1
        let newImgs := acc.2.2.1
        let o2n := acc.2.2.2
        let key := pyLower (stripHtmlKey p.2)
        if key = "" then acc
        else if (seen.find? (fun kv => kv.1 = key)).isSome then acc
        else
          (seen ++ [(key, newOpts.length)], newOpts ++ [p.2],
           newImgs ++ [oimgs.getD p.1 none], o2n ++ [(p.1, newOpts.length)]))
      ([], [], [], [])
    let seen := st.1
    let newOpts := st.2.1
    let newImgs := st.2.2.1
    let o2n := st.2.2.2
    if newOpts.isEmpty then q
    else
      let oldc := q.correct_option
      let newc :=
        match o2n.find? (fun pr => pr.1 = oldc) with
        | some pr => pr.2
        | none =>
          let oldText :=
            if oldc < q.options.length then stripHtmlKey (q.options.getD oldc "")
            else ""
          if oldText ≠ "" then
            match seen.find? (fun kv => kv.1 = pyLower oldText) with
            | some kv => kv.2
            | none => 0
          else 0
      { q with options := newOpts, option_images := newImgs,
               correct_option := newc }

/-- `SnapshotParser._finalize_question_content`: join the blocks' texts with
`<br>`, strip, apply math normalization, and attach the first image. -/
def finalize_question_content (q : SnapQuestion)
    (blocks : List SnapContent) : SnapQuestion :=
  let parts := (blocks.map SnapContent.text).filter (fun t => t ≠ "")
  let combined := pyStrip (String.intercalate "<br>" parts)
  let qtext := normalize_math_html combined
  let imgs := blocks.foldl (fun a b => a ++ b.images) []
  let q1 := { q with question_text := qtext }
  match imgs with
  | [] => q1
  | i :: _ =>
    { q1 with question_image := some i, has_rich_content := true,
              content_type := if qtext ≠ "" then "mixed" else "image" }

/-- Grow a list to length at least `n + 1` with filler `x`
(the `while len(...) <= option_index: append` loops). -/
def padToLen {α : Type} (l : List α) (n : Nat) (x : α) : List α :=
  l ++ List.replicate (n + 1 - l.length) x

/-- `SnapshotParser._finalize_option`: join, normalize math, strip the
correct markers, pad the option arrays to the option index, and store text
and first image. -/
def finalize_option (q : SnapQuestion) (blocks : List SnapContent)
    (idx : Nat) : SnapQuestion :=
  let parts := (blocks.map SnapContent.text).filter (fun t => t ≠ "")
  let t0 := pyStrip (String.intercalate "<br>" parts)
  let t1 := pyStrip (removeCorrectMarkersSnap (normalize_math_html t0))
  let imgs := blocks.foldl (fun a b => a ++ b.images) []
  let opts := (padToLen q.options idx "").set idx t1
  let oimgs := padToLen q.option_images idx none
  match imgs with
  | [] => { q with options := opts, option_images := oimgs }
  | i :: _ =>
    { q with options := opts, option_images := oimgs.set idx (some i),
             has_rich_content := true, content_type := "mixed" }

/-- `SnapshotParser._finalize_question`: finalize the pending option or the
question body, then run the dedup/normalization pass. -/
def finalize_question (q : SnapQuestion) (blocks : List SnapContent)
    (lastOpt : Option Nat) : SnapQuestion :=
  normalize_final_question
    (match lastOpt with
     | some i => finalize_option q blocks i
     | none => finalize_question_content q blocks)

/-- The fresh question dict created when a question marker is found. -/
def snapNew (n : Nat) : SnapQuestion :=
  { question_number := n, question_text := "", question_image := none,
    options := [], option_images := [], correct_option := 0, marks := 1,
    content_type := "text", has_rich_content := false }

/-- Loop state of `_parse_snapshot_structure`. -/
structure SnapState where
  questions : List SnapQuestion
  current : Option SnapQuestion
  currentOpt : Option Nat
  content : List SnapContent
deriving Repr

def letterIndex (c : Char) : Nat := (upperChar c).toNat - 'A'.toNat

/-- One iteration of the snapshot scanning loop. -/
def snapStep (s : SnapState) (p : SnapPara) : SnapState :=
  let text := pyStrip p.text
  if text = "" then s
  else
    match detect_question_number text with
    | some nr =>
      let qs := match s.current with
        | some q => s.questions ++ [finalize_question q s.content s.currentOpt]
        | none => s.questions
      { questions := qs, current := some (snapNew nr.1), currentOpt := none,
        content := [capture_paragraph_content p (some nr.2)] }
    | none =>
      match s.current with
      | none => s
      | some q =>
        match detect_option_letter text with
        | some la =>
          let q1 := match s.currentOpt with
            | some i => finalize_option q s.content i
            | none => finalize_question_content q s.content
          let idx := letterIndex la.1
          let q2 :=
            if is_marked_correct text || is_marked_correct la.2 then
              { q1 with correct_option := idx }
            else q1
          { s with current := some q2, currentOpt := some idx,
                   content := [capture_paragraph_content p (some la.2)] }
        | none =>
          { s with content := s.content ++ [capture_paragraph_content p none] }

/-- `SnapshotParser._parse_snapshot_structure` over a paragraph stream. -/
def parse_snapshot_structure (paras : List SnapPara) : List SnapQuestion :=
  let s := paras.foldl snapStep
    { questions := [], current := none, currentOpt := none, content := [] }
  match s.current with
  | some q => s.questions ++ [finalize_question q s.content s.currentOpt]
  | none => s.questions

/-- Result shape of `SnapshotParser.parse_docx_snapshot`. -/
structure SnapResult where
  mcq_questions : List SnapQuestion
  theory_questions : List SnapQuestion
  total_questions : Nat
  format : String
  warnings : List String
deriving Repr

/-- `SnapshotParser.parse_docx_snapshot` on a decoded paragraph stream: all
extracted questions are returned as `mcq_questions`; `theory_questions` is
the empty list. -/
def parse_docx_snapshot (paras : List SnapPara) : SnapResult :=
  let questions := parse_snapshot_structure paras
  { mcq_questions := questions, theory_questions := [],
    total_questions := questions.length, format := "docx_snapshot",
    warnings := [] }

/-- `str.lower().endswith(suffix)` on the filename. -/
def strEndsWith (s suffix : String) : Bool := endsWithL suffix.data s.data

/-- `enhanced_parse` as installed by `enable_snapshot_parsing`: for a
`.docx` filename (case-insensitive) the snapshot parser is tried without the
question type; any exception — modelled by `Except.error` — falls back to
the original `DocumentParser.parse_document` with the same file content,
filename and question type.  For other extensions the original parser runs,
with the same fallback re-invoking it on failure. -/
def enhanced_parse {β ε α : Type}
    (snapshotParse : β → String → Except ε α)
    (originalParse : β → String → String → Except ε α)
    (file_content : β) (filename : String) (question_type : String) :
    Except ε α :=
  let attempt :=
    if strEndsWith (pyLower filename) ".docx" then
      snapshotParse file_content filename
    else originalParse file_content filename question_type
  match attempt with
  | Except.ok r => Except.ok r
  | Except.error _ => originalParse file_content filename question_type

end Snapshot

/-- The spec's dedup example as a question record: four captured options of
which the third is a duplicate of the first, with `correct_option` pointing
at that removed duplicate. -/
def c5Question : Snapshot.SnapQuestion :=
  { question_number := 1, question_text := "What is 2 plus 2?",
    question_image := none,
    options := ["4 (correct)", "Four", "4 (correct)", "Six"],
    option_images := [none, none, none, none], correct_option := 2,
    marks := 1, content_type := "text", has_rich_content := false }

/-- C5 counterexample: the claim says the option list
`["4 (correct)","Four","4 (correct)","Six"]` collapses to 2 unique entries.
The canonical keys are `4`, `four` and `six` — `"Four"` does not share a key
with `"4"` — so normalization keeps 3 entries, not 2. -/
theorem c5_counterexample :
    (Snapshot.normalize_final_question c5Question).options.length = 3 ∧
    (Snapshot.normalize_final_question c5Question).options.length ≠ 2 := by
  decide

/-- C5 (amended): final normalization drops empty options, collapses options
whose canonical comparison key repeats (keeping the first occurrence) and
remaps `correct_option` through the old-index-to-new-index map with a
text-equality fallback defaulting to 0.  On the spec's example the list
collapses to the 3 unique entries `["4 (correct)","Four","Six"]` — the
duplicate `"4 (correct)"` at index 2 is removed — and `correct_option`,
which pointed at that removed duplicate, is remapped through the
text-equality fallback to 0, the first retained "4"-equivalent entry. -/
theorem c5_normalization_amended :
    (Snapshot.normalize_final_question c5Question).options =
      ["4 (correct)", "Four", "Six"] ∧
    (Snapshot.normalize_final_question c5Question).correct_option = 0 ∧
    (Snapshot.normalize_final_question c5Question).option_images =
      [none, none, none] := by
  decide

/-- C10: whenever the snapshot parser returns a result, every extracted
question is in `mcq_questions` and `theory_questions` is empty — the
snapshot path never produces a Theory question.  (The enhanced parse invokes
it as `parse_docx_snapshot(file_content, filename)`, without the requested
question type; the embedding's type reflects that signature.) -/
theorem c10_snapshot_all_mcq (paras : List Snapshot.SnapPara) :
    (Snapshot.parse_docx_snapshot paras).theory_questions = [] ∧
    (Snapshot.parse_docx_snapshot paras).mcq_questions =
      Snapshot.parse_snapshot_structure paras ∧
    (Snapshot.parse_docx_snapshot paras).total_questions =
      (Snapshot.parse_snapshot_structure paras).length :=
  ⟨rfl, rfl, rfl⟩

/-- C2: for every input on which the snapshot parser raises (modelled as
`Except.error`), the enhanced parse installed by `enable_snapshot_parsing`
returns the result of the original line-classification parser applied to the
same file content, filename and question type, instead of propagating the
exception. -/
theorem c2_snapshot_fallback {β ε α : Type}
    (snapshotParse : β → String → Except ε α)
    (originalParse : β → String → String → Except ε α)
    (file_content : β) (filename : String) (question_type : String)
    (e : ε)
    (hdocx : Snapshot.strEndsWith (pyLower filename) ".docx" = true)
    (hfail : snapshotParse file_content filename = Except.error e) :
    Snapshot.enhanced_parse snapshotParse originalParse file_content filename
        question_type =
      originalParse file_content filename question_type := by
  unfold Snapshot.enhanced_parse
  simp only [hdocx, if_true, hfail]

/-- Witness for `c2_snapshot_fallback`: a snapshot parser that always fails
on a `.DOCX` file falls back to the original parser's result. -/
theorem c2_snapshot_fallback_witness :
    Snapshot.enhanced_parse
      (fun (_ : Unit) (_ : String) => (Except.error "boom" : Except String Nat))
      (fun _ _ _ => Except.ok 7) () "Exam.DOCX" "auto" = Except.ok 7 :=
  c2_snapshot_fallback _ _ () "Exam.DOCX" "auto" "boom" (by decide) rfl

/-! ## `BulkQuestionUploader` (`app/admin/bulk_upload.py`) -/

namespace Bulk

/-- An incoming validated MCQ draft, as consumed by
`save_questions_to_exam`. -/
structure McqDraftIn where
  question_text : String
  options : List String
  correct_option : Nat
  marks : Nat
  instruction_id : Option String
deriving DecidableEq, Repr

/-- An incoming validated Theory draft. -/
structure TheoryDraftIn where
  question_text : String
  sub_questions : List DocParser.SubQuestion
  marks : Nat
  instruction_id : Option String
deriving DecidableEq, Repr

/-- The `question_data` record handed to `Question.create_question`. -/
structure SavedQuestion where
  question_number : Nat
  question_text : String
  question_type : String
  options : List String
  correct_option : Nat
  sub_questions : List DocParser.SubQuestion
  marks : Nat
  instruction_id : Option String
deriving DecidableEq, Repr

/-- `BulkQuestionUploader.save_questions_to_exam`, question-persistence part
(instructions and pool-counter recomputation are store effects outside the
marks contract; inserts are modelled as succeeding).  `mcq_count` and
`theory_count` are the existing per-type question counts of the exam used to
continue numbering.  With a non-empty MCQ batch, every persisted MCQ's marks
are `max(1, 30 // len(mcq_questions))`; Theory marks are persisted as
parsed. -/
def save_questions_to_exam (mcq_questions : List McqDraftIn)
    (theory_questions : List TheoryDraftIn) (mcq_count theory_count : Nat) :
    List SavedQuestion × List SavedQuestion :=
  let mcq_marks_per_question := max 1 (30 / mcq_questions.length)
  (mcq_questions.enum.map (fun iq =>
     { question_number := mcq_count + iq.1 + 1,
       question_text := iq.2.question_text, question_type := "mcq",
       options := iq.2.options, correct_option := iq.2.correct_option,
       marks := if mcq_questions.isEmpty then iq.2.marks
                else mcq_marks_per_question,
       sub_questions := [],
       instruction_id := iq.2.instruction_id }),
   theory_questions.enum.map (fun iq =>
     { question_number := theory_count + iq.1 + 1,
       question_text := iq.2.question_text, question_type := "theory",
       options := [], correct_option := 0,
       marks := iq.2.marks,
       sub_questions := iq.2.sub_questions,
       instruction_id := iq.2.instruction_id }))

end Bulk

/-- C1: whenever the batch of new MCQ questions is non-empty, every MCQ
question persisted from that batch has its marks overwritten to
`max(1, 30 // n)` with `n` the batch size — regardless of its parsed marks —
while every Theory question is persisted with its parsed marks unchanged. -/
theorem c1_mark_equalization (mcqs : List Bulk.McqDraftIn)
    (theorys : List Bulk.TheoryDraftIn) (mc tc : Nat) (h : mcqs ≠ []) :
    (∀ s ∈ (Bulk.save_questions_to_exam mcqs theorys mc tc).1,
      s.marks = max 1 (30 / mcqs.length)) ∧
    ((Bulk.save_questions_to_exam mcqs theorys mc tc).2.map
        Bulk.SavedQuestion.marks =
      theorys.map Bulk.TheoryDraftIn.marks) := by
  constructor
  · intro s hs
    unfold Bulk.save_questions_to_exam at hs
    simp only [List.mem_map] at hs
    obtain ⟨iq, _, hmk⟩ := hs
    rw [← hmk]
    simp [List.isEmpty_iff, h]
  · unfold Bulk.save_questions_to_exam
    simp only [List.map_map]
    rw [show theorys.map Bulk.TheoryDraftIn.marks =
        theorys.enum.map (fun iq => iq.2.marks) from ?_]
    · rfl
    · rw [show (fun iq : Nat × Bulk.TheoryDraftIn => iq.2.marks) =
          (Bulk.TheoryDraftIn.marks ∘ Prod.snd) from rfl]
      rw [← List.map_map, List.enum_map_snd]

/-- Witness for `c1_mark_equalization`: a 3-element MCQ batch gets 10 marks
per question (`max(1, 30 // 3)`) and a 7-element batch computes
`max(1, 30 // 7) = 4`; the theory batch keeps its parsed marks. -/
theorem c1_mark_equalization_witness :
    ((∀ s ∈ (Bulk.save_questions_to_exam
        [{ question_text := "a", options := ["x", "y"], correct_option := 0,
           marks := 2, instruction_id := none },
         { question_text := "b", options := ["x", "y"], correct_option := 0,
           marks := 5, instruction_id := none },
         { question_text := "c", options := ["x", "y"], correct_option := 1,
           marks := 9, instruction_id := none }]
        [{ question_text := "t", sub_questions := [],
           marks := 6, instruction_id := none }] 0 0).1,
      s.marks = max 1 (30 / 3)) ∧
     ((Bulk.save_questions_to_exam
        [{ question_text := "a", options := ["x", "y"], correct_option := 0,
           marks := 2, instruction_id := none },
         { question_text := "b", options := ["x", "y"], correct_option := 0,
           marks := 5, instruction_id := none },
         { question_text := "c", options := ["x", "y"], correct_option := 1,
           marks := 9, instruction_id := none }]
        [{ question_text := "t", sub_questions := [],
           marks := 6, instruction_id := none }] 0 0).2.map
        Bulk.SavedQuestion.marks = [6])) ∧
    max 1 (30 / 3) = 10 ∧ max 1 (30 / 7) = 4 :=
  ⟨c1_mark_equalization _ _ 0 0 (by decide), by decide, by decide⟩

namespace Bulk

/-- A sub-question dict as the validator sees it (`sub_marks` may be
non-positive in invalid drafts, hence `Int`). -/
structure PySubQ where
  sub_number : String
  sub_text : String
  sub_marks : Int
deriving DecidableEq, Repr

/-- A question dict under validation/repair.  `none` models an absent key
(the source reads all of these through `dict.get`). -/
structure QDict where
  question_text : Option String
  options : Option (List String)
  correct_option : Option Int
  marks : Option Int
  sub_questions : Option (List PySubQ)
  instruction_id : Option String
deriving DecidableEq, Repr

/-- `QuestionValidator.validate_mcq_question`.  (The `instruction_id`
isinstance-check never fails in the model, where ids are strings.) -/
def validate_mcq_question (q : QDict) : Bool × List String :=
  let e1 := if pyStrip (q.question_text.getD "") = "" then
      ["Question text is required"] else []
  let opts := q.options.getD []
  let e2 := if opts.length < 2 then ["MCQ must have at least 2 options"]
    else []
  let e3 := match q.correct_option with
    | none => ["Valid correct option must be specified"]
    | some c =>
      if c < 0 ∨ (opts.length : Int) ≤ c then
        ["Valid correct option must be specified"]
      else []
  let e4 := if q.marks.getD 0 ≤ 0 then ["Marks must be positive"] else []
  let errors := e1 ++ e2 ++ e3 ++ e4
  (errors.isEmpty, errors)

/-- Per-sub-question errors of `validate_theory_question` (1-based index in
the message). -/
def theorySubErrors (i : Nat) (sub : PySubQ) : List String :=
  (if pyStrip sub.sub_text = "" then
     ["Sub-question " ++ Nat.repr (i + 1) ++ " text is required"]
   else []) ++
  (if sub.sub_marks ≤ 0 then
     ["Sub-question " ++ Nat.repr (i + 1) ++ " marks must be positive"]
   else [])

/-- `QuestionValidator.validate_theory_question`. -/
def validate_theory_question (q : QDict) : Bool × List String :=
  let subs := q.sub_questions.getD []
  let e1 := if subs.isEmpty then
      ["Theory question must have at least one sub-question"] else []
  let e2 := (subs.enum.map (fun p => theorySubErrors p.1 p.2)).flatten
  let total := (subs.map PySubQ.sub_marks).sum
  let e3 := if total ≤ 0 then ["Total marks must be positive"] else []
  let errors := e1 ++ e2 ++ e3
  (errors.isEmpty, errors)

/-- The `while len(options) < 2: options.append(f"Option {len(options)+1}")`
padding loop, unrolled. -/
def padOptions : List String → List String
  | [] => ["Option 1", "Option 2"]
  | [a] => [a, "Option 2"]
  | l => l

/-- `BulkQuestionUploader._attempt_fix_question`.  The source takes a
*shallow* copy (`fixed_question = question.copy()`), so the list bound to
`'options'` is shared between the copy and the caller's draft, and the
padding loop appends to it in place.  The embedding therefore returns both
the repair result (`None` when the repaired draft still fails validation)
and the caller's draft as it stands after the call: its `options` list shows
the padding whenever the key was present, while all other fields — and the
whole draft on the theory path — are untouched. -/
def attempt_fix_question (q : QDict) (qType : String) :
    Option QDict × QDict :=
  if qType = "mcq" then
    let padded := padOptions (q.options.getD [])
    let newMarks : Option Int := match q.marks with
      | none => some 1
      | some m => if m ≤ 0 then some 1 else some m
    let fixed : QDict :=
      { q with correct_option := some (q.correct_option.getD 0),
               options := some padded, marks := newMarks }
    let originalAfter : QDict :=
      { q with options := q.options.map (fun _ => padded) }
    (if (validate_mcq_question fixed).1 then some fixed else none,
     originalAfter)
  else if qType = "theory" then
    let subs := match q.sub_questions with
      | none =>
        [{ sub_number := "a",
           sub_text := q.question_text.getD "Default question",
           sub_marks := q.marks.getD 1 : PySubQ }]
      | some [] =>
        [{ sub_number := "a",
           sub_text := q.question_text.getD "Default question",
           sub_marks := q.marks.getD 1 : PySubQ }]
      | some l => l
    let total := (subs.map PySubQ.sub_marks).sum
    let fixed : QDict := { q with sub_questions := some subs,
                                  marks := some total }
    (if (validate_theory_question fixed).1 then some fixed else none, q)
  else
    (if (validate_theory_question q).1 then some q else none, q)

end Bulk

/-- C7: the claim — and the spec — state that lenient repair never mutates
the draft it validates, repair producing a new draft.  The code takes a
shallow `dict.copy()`, so padding an MCQ draft that has an options list with
fewer than two entries appends placeholder options to the caller's own list
object: after the call the original draft's `options` has grown to
`["4", "Option 2"]`.  The repaired copy differs from the original only in
its reassigned top-level keys. -/
theorem c7_shallow_copy_mutation :
    (Bulk.attempt_fix_question
      { question_text := some "What is 2+2?", options := some ["4"],
        correct_option := none, marks := some 1, sub_questions := none,
        instruction_id := none } "mcq").2.options = some ["4", "Option 2"] ∧
    (Bulk.attempt_fix_question
      { question_text := some "What is 2+2?", options := some ["4"],
        correct_option := none, marks := some 1, sub_questions := none,
        instruction_id := none } "mcq").2 ≠
      { question_text := some "What is 2+2?", options := some ["4"],
        correct_option := none, marks := some 1, sub_questions := none,
        instruction_id := none } ∧
    (Bulk.attempt_fix_question
      { question_text := some "What is 2+2?", options := some ["4"],
        correct_option := none, marks := some 1, sub_questions := none,
        instruction_id := none } "mcq").1 =
      some { question_text := some "What is 2+2?",
             options := some ["4", "Option 2"], correct_option := some 0,
             marks := some 1, sub_questions := none,
             instruction_id := none } := by
  decide
